import Mathlib

/-!
# Library lending backend: borrow / return / review / create-book handlers

A shallow embedding of `controllers/books.go`, `middlewares/auth.go`,
`cmd/main.go` and `models/models.go`.

Modelling decisions.

* The relational store behind `database.DB` is a record of tables, each a list of
  rows.  Auto-increment primary keys are drawn from per-table counters.
* A lookup (`First`, `Where(...).First`) returns what the tables hold; `First`
  orders by primary key, so the row with the least `ID` among the matching ones
  is returned.  Where a handler answers a lookup error with 400 or 404, an
  error of the database is to it the same as no row.  Two lookups are tested
  with `err == nil` instead (the issued order in `BorrowBook`, the review in
  `AddReview`): there a database error lets the handler go on to its insert,
  and `BorrowBookOn` and `AddReviewOn` take a flag for such a run.
* Every operation whose error the handlers answer with 500 can fail.  The field
  `failAt` of the request context names the ordinal (counted from 0 inside one
  handler run) of the 500-guarded operation that fails; a handler returns at its
  first failure, so one ordinal describes a run.  The uniqueness constraints
  declared in `models.go` (unique ISBN, composite key of `book_authors`), the
  foreign key from orders and reviews to users, and the restriction on
  deleting a referenced book make the operation fail as well.
  Column types (a value too long for its `varchar`) are not modelled; such a
  failure is one of those `failAt` stands for.
* Go `int` is 64-bit two's complement: `++` and `--` wrap (`wrapInt64`), and the
  conversion `uint(bookID)` is `toUint`.  `strconv.Atoi` rejects numerals outside
  the `int` range.
* `time.Time` is a number of seconds.  `AddDate(0, 0, 14)` adds fourteen calendar
  days in the zone of the process (`Zone`, `addDays`): the wall clock reading
  is kept, so the result is not `14 * 86400` seconds later when the offset of
  the zone changes in between.
-/

namespace Library

/-! ## Data model (`models/models.go`) -/

/-- Seconds since the epoch. -/
abbrev Time := Nat

structure User where
  ID : Nat
  Name : String
  Email : String
  PasswordHash : String
  Role : String
  RegistrationDate : Time
  PhotoURL : Option String
  Status : String
deriving DecidableEq, Repr

structure Author where
  ID : Nat
  Name : String
  BirthYear : Option Int
  Country : Option String
  Biography : Option String
deriving DecidableEq, Repr

structure Genre where
  ID : Nat
  Name : String
  Description : Option String
deriving DecidableEq, Repr

structure Book where
  ID : Nat
  Title : String
  Description : Option String
  PublicationYear : Option Int
  ISBN : String
  GenreID : Nat
  TotalCopies : Int
  AvailableCopies : Int
  CoverURL : Option String
  AddedDate : Time
deriving DecidableEq, Repr

structure BookAuthor where
  BookID : Nat
  AuthorID : Nat
deriving DecidableEq, Repr

structure Order where
  ID : Nat
  UserID : Nat
  BookID : Nat
  OrderDate : Time
  DueDate : Time
  ReturnDate : Option Time
  Status : String
deriving DecidableEq, Repr

structure Review where
  ID : Nat
  UserID : Nat
  BookID : Nat
  Rating : Int
  Comment : Option String
  CreatedAt : Time
deriving DecidableEq, Repr

/-- The tables behind `database.DB`, with the auto-increment counters. -/
structure Store where
  users : List User
  authors : List Author
  genres : List Genre
  books : List Book
  bookAuthors : List BookAuthor
  orders : List Order
  reviews : List Review
  nextBookID : Nat
  nextOrderID : Nat
  nextReviewID : Nat
deriving DecidableEq, Repr

/-! ## Machine integers and time -/

def maxInt64 : Int := 9223372036854775807

def minInt64 : Int := -9223372036854775808

/-- Two's complement wrap-around of a Go `int`. -/
def wrapInt64 (x : Int) : Int :=
  (x + 9223372036854775808) % 18446744073709551616 - 9223372036854775808

/-- The conversion `uint(x)` of a Go `int`. -/
def toUint (x : Int) : Nat :=
  (x % 18446744073709551616).toNat

/-- The result of `strconv.Atoi` on a path parameter, given the integer its
decimal numeral denotes (`none` when the parameter is no numeral): numerals
outside the `int` range are an error. -/
def Atoi (numeral : Option Int) : Option Int :=
  match numeral with
  | none => none
  | some n => if minInt64 ≤ n ∧ n ≤ maxInt64 then some n else none

/-- A time zone (`time.Location`): the offset from UTC, in seconds, in force
before the first transition, and the transitions in increasing order of their
instant, each with the offset in force from that instant on. -/
structure Zone where
  first : Int
  tx : List (Int × Int)
deriving DecidableEq, Repr

/-- The start of time for a zone lookup (`alpha` in package `time`). -/
def zoneAlpha : Int := -9223372036854775808

/-- The stop of time for a zone lookup (`omega` in package `time`). -/
def zoneOmega : Int := 9223372036854775807

/-- The search of a zone lookup: the offset in force at the instant `sec`, with
the interval `[start, stop)` of instants in which it is in force, given the
offset and start found so far and the transitions not yet passed. -/
def lookupFrom (offset start : Int) : List (Int × Int) → Int → Int × Int × Int
  | [], _ => (offset, start, zoneOmega)
  | (w, off) :: rest, sec =>
    if sec < w then (offset, start, w) else lookupFrom off w rest sec

/-- The zone lookup `l.lookup(sec)`. -/
def Zone.lookup (z : Zone) (sec : Int) : Int × Int × Int :=
  lookupFrom z.first zoneAlpha z.tx sec

/-- The zone UTC. -/
def utc : Zone :=
  { first := 0, tx := [] }

/-- The method `t.AddDate(0, 0, days)` in the zone `z`: the date and clock of `t`
are read on the wall clock of the zone, `days` is added to the day, and
`time.Date` turns the reading back into an instant, looking the offset up
first at the reading taken as UTC and once more when that offset does not fit. -/
def addDays (z : Zone) (t : Time) (days : Nat) : Time :=
  let wall : Int := (t : Int) + (z.lookup (t : Int)).1
  let unix : Int := wall + (days : Int) * 86400
  match z.lookup unix with
  | (offset, start, stop) =>
    if offset ≠ 0 then
      let instant := unix - offset
      let offset2 :=
        if instant < start ∨ instant ≥ stop then (z.lookup instant).1 else offset
      (unix - offset2).toNat
    else unix.toNat

/-! ## Responses and request context -/

/-- The struct `BookResponse`: a book with its genre name and author names. -/
structure BookResponse where
  ID : Nat
  Title : String
  Description : Option String
  PublicationYear : Option Int
  ISBN : String
  Genre : String
  TotalCopies : Int
  AvailableCopies : Int
  CoverURL : Option String
  AddedDate : Time
  Authors : List String
deriving DecidableEq, Repr

/-- JSON bodies the handlers send. -/
inductive Body where
  | error (msg : String)
  | bindError
  | message (msg : String)
  | books (list : List BookResponse)
  | borrowed (msg : String) (due_date : Time)
  | bookCreated (msg : String) (book_id : Nat)
  | reviewCreated (msg : String) (review_id : Nat)
deriving DecidableEq, Repr

structure Response where
  status : Nat
  body : Body
deriving DecidableEq, Repr

/-- What a handler reads from `gin.Context` and from its environment. -/
structure Context where
  /-- The integer denoted by `c.Param("id")`, `none` when it is no numeral. -/
  id : Option Int
  /-- The key `user_id` set by the authentication gate. -/
  user_id : Option Nat
  /-- The key `role` set by the authentication gate. -/
  role : Option String
  /-- The reading of `time.Now()`. -/
  now : Time
  /-- The zone of the process (`time.Local`). -/
  zone : Zone
  /-- Ordinal of the 500-guarded persistence operation that fails, if any. -/
  failAt : Option Nat
deriving DecidableEq, Repr

/-! ## Persistence operations -/

/-- The row of least `ID` in a list of orders (`ORDER BY id LIMIT 1`). -/
def minByID : List Order → Option Order
  | [] => none
  | o :: os =>
    match minByID os with
    | none => some o
    | some m => if o.ID ≤ m.ID then some o else some m

/-- The query `Where(cond).First(&order)`. -/
def firstOrder (cond : Order → Bool) (orders : List Order) : Option Order :=
  minByID (orders.filter cond)

/-- The query `First(&book, bookID)` with an `int` key. -/
def firstBook (s : Store) (bookID : Int) : Option Book :=
  s.books.find? (fun b => decide ((b.ID : Int) = bookID))

/-- The condition `user_id = ? AND book_id = ? AND status = 'issued'`. -/
def issuedBy (userID : Nat) (bookID : Int) (o : Order) : Bool :=
  decide (o.UserID = userID) && decide ((o.BookID : Int) = bookID) && decide (o.Status = "issued")

/-- The condition `user_id = ? AND book_id = ? AND status IN ('returned', 'overdue')`. -/
def finishedBy (userID : Nat) (bookID : Int) (o : Order) : Bool :=
  decide (o.UserID = userID) && decide ((o.BookID : Int) = bookID) &&
    (decide (o.Status = "returned") || decide (o.Status = "overdue"))

/-- The condition `user_id = ? AND book_id = ?` on reviews. -/
def reviewedBy (userID : Nat) (bookID : Int) (r : Review) : Bool :=
  decide (r.UserID = userID) && decide ((r.BookID : Int) = bookID)

/-- The insert `Create(&order)`: the key is the next auto-increment value and the
zero `OrderDate` is replaced by the column default `current_timestamp`; the
foreign key on `user_id` rejects an order of a user without a row. -/
def createOrder (s : Store) (o : Order) (now : Time) (fails : Bool) : Option (Order × Store) :=
  if fails || !(s.users.any (fun u => decide (u.ID = o.UserID))) then none
  else
    let row : Order := { o with ID := s.nextOrderID, OrderDate := now }
    some (row, { s with orders := s.orders ++ [row], nextOrderID := s.nextOrderID + 1 })

/-- The update `Save(&order)`: all columns of the rows with this key are overwritten. -/
def saveOrder (s : Store) (o : Order) (fails : Bool) : Option Store :=
  if fails then none
  else some { s with orders := s.orders.map (fun x => if x.ID = o.ID then o else x) }

/-- The update `Save(&book)`. -/
def saveBook (s : Store) (b : Book) (fails : Bool) : Option Store :=
  if fails then none
  else some { s with books := s.books.map (fun x => if x.ID = b.ID then b else x) }

/-- The insert `Create(&review)`; the foreign key on `user_id` rejects a review
of a user without a row. -/
def createReview (s : Store) (r : Review) (now : Time) (fails : Bool) : Option (Review × Store) :=
  if fails || !(s.users.any (fun u => decide (u.ID = r.UserID))) then none
  else
    let row : Review := { r with ID := s.nextReviewID, CreatedAt := now }
    some (row, { s with reviews := s.reviews ++ [row], nextReviewID := s.nextReviewID + 1 })

/-! ## Lending handlers (`controllers/books.go`) -/

/-- The handler `BorrowBook`.  The flag `lookupErrs` tells whether the query for
an issued order of the user returns a database error: the handler rejects only
when the query returns no error at all (`err == nil`), so on such an error it
goes on as if the user held no issued order. -/
def BorrowBookOn (lookupErrs : Bool) (s : Store) (c : Context) : Response × Store :=
  match Atoi c.id with
  | none => (⟨400, .error "Invalid book ID"⟩, s)
  | some bookID =>
    match c.user_id with
    | none => (⟨401, .error "User not authenticated"⟩, s)
    | some userID =>
      match firstBook s bookID with
      | none => (⟨404, .error "Book not found"⟩, s)
      | some book =>
        if book.AvailableCopies ≤ 0 then
          (⟨400, .error "No available copies of this book"⟩, s)
        else if !lookupErrs && (firstOrder (issuedBy userID bookID) s.orders).isSome then
          (⟨400, .error "You have already borrowed this book"⟩, s)
        else
          let dueDate := addDays c.zone c.now 14
          let order : Order :=
            { ID := 0, UserID := userID, BookID := toUint bookID, OrderDate := 0,
              DueDate := dueDate, ReturnDate := none, Status := "issued" }
          match createOrder s order c.now (decide (c.failAt = some 0)) with
          | none => (⟨500, .error "Failed to create order"⟩, s)
          | some (_, s1) =>
            let book1 : Book :=
              { book with AvailableCopies := wrapInt64 (book.AvailableCopies - 1) }
            match saveBook s1 book1 (decide (c.failAt = some 1)) with
            | none => (⟨500, .error "Failed to update book availability"⟩, s1)
            | some s2 =>
              (⟨200, .borrowed "Book borrowed successfully" dueDate⟩, s2)

/-- The handler `BorrowBook` in a run in which the query for an issued order
answers. -/
def BorrowBook (s : Store) (c : Context) : Response × Store :=
  BorrowBookOn false s c

/-- The handler `ReturnBook`. -/
def ReturnBook (s : Store) (c : Context) : Response × Store :=
  match Atoi c.id with
  | none => (⟨400, .error "Invalid book ID"⟩, s)
  | some bookID =>
    match c.user_id with
    | none => (⟨401, .error "User not authenticated"⟩, s)
    | some userID =>
      match firstOrder (issuedBy userID bookID) s.orders with
      | none => (⟨400, .error "No active borrow record found for this book"⟩, s)
      | some order =>
        let order1 : Order :=
          { order with
            ReturnDate := some c.now,
            Status := if c.now > order.DueDate then "overdue" else "returned" }
        match saveOrder s order1 (decide (c.failAt = some 0)) with
        | none => (⟨500, .error "Failed to update order"⟩, s)
        | some s1 =>
          match (if c.failAt = some 1 then none else firstBook s1 bookID) with
          | none => (⟨500, .error "Failed to fetch book"⟩, s1)
          | some book =>
            let book1 : Book :=
              { book with AvailableCopies := wrapInt64 (book.AvailableCopies + 1) }
            match saveBook s1 book1 (decide (c.failAt = some 2)) with
            | none => (⟨500, .error "Failed to update book availability"⟩, s1)
            | some s2 => (⟨200, .message "Book returned successfully"⟩, s2)

/-- The request body of `AddReview` after JSON decoding. -/
structure ReviewRequest where
  Rating : Int
  Comment : Option String
deriving DecidableEq, Repr

/-- The binding `ShouldBindJSON(&req)` for a review: `none` stands for a body
that does not decode; the tags are `required,gte=1,lte=5` on `Rating`. -/
def bindReview (body : Option ReviewRequest) : Option ReviewRequest :=
  match body with
  | none => none
  | some req => if req.Rating ≠ 0 ∧ 1 ≤ req.Rating ∧ req.Rating ≤ 5 then some req else none

/-- The handler `AddReview`.  The flag `lookupErrs` tells whether the query for
a review of the user returns a database error: the handler rejects only when
the query returns no error at all (`err == nil`), so on such an error it goes
on as if the user had no review. -/
def AddReviewOn (lookupErrs : Bool) (s : Store) (c : Context) (body : Option ReviewRequest) :
    Response × Store :=
  match Atoi c.id with
  | none => (⟨400, .error "Invalid book ID"⟩, s)
  | some bookID =>
    match c.user_id with
    | none => (⟨401, .error "User not authenticated"⟩, s)
    | some userID =>
      match bindReview body with
      | none => (⟨400, .bindError⟩, s)
      | some req =>
        match firstBook s bookID with
        | none => (⟨404, .error "Book not found"⟩, s)
        | some _ =>
          if (firstOrder (finishedBy userID bookID) s.orders).isNone then
            (⟨400, .error "You must borrow and return the book before reviewing"⟩, s)
          else if !lookupErrs && s.reviews.any (reviewedBy userID bookID) then
            (⟨400, .error "You have already reviewed this book"⟩, s)
          else
            let review : Review :=
              { ID := 0, UserID := userID, BookID := toUint bookID, Rating := req.Rating,
                Comment := req.Comment, CreatedAt := 0 }
            match createReview s review c.now (decide (c.failAt = some 0)) with
            | none => (⟨500, .error "Failed to create review"⟩, s)
            | some (row, s1) =>
              (⟨201, .reviewCreated "Review added successfully" row.ID⟩, s1)

/-- The handler `AddReview` in a run in which the query for a review answers. -/
def AddReview (s : Store) (c : Context) (body : Option ReviewRequest) : Response × Store :=
  AddReviewOn false s c body

/-! ## Catalog handlers (`controllers/books.go`) -/

/-- The request body of `CreateBook` after JSON decoding; `AuthorIDs` is `none`
when the field is absent or null. -/
structure CreateBookRequest where
  Title : String
  Description : Option String
  PublicationYear : Option Int
  ISBN : String
  GenreID : Nat
  TotalCopies : Int
  CoverURL : Option String
  AuthorIDs : Option (List Nat)
deriving DecidableEq, Repr

/-- The binding `ShouldBindJSON(&req)` for a new book: `none` stands for a body
that does not decode, a number outside the `int` range does not decode either,
and the tags are `required` on `Title`, `ISBN`, `GenreID`, `AuthorIDs` and
`required,gt=0` on `TotalCopies`. -/
def bindCreateBook (body : Option CreateBookRequest) : Option CreateBookRequest :=
  match body with
  | none => none
  | some req =>
    if minInt64 ≤ req.TotalCopies ∧ req.TotalCopies ≤ maxInt64 ∧
        req.Title ≠ "" ∧ req.ISBN ≠ "" ∧ req.GenreID ≠ 0 ∧
        req.TotalCopies ≠ 0 ∧ 0 < req.TotalCopies ∧ req.AuthorIDs.isSome then
      some req
    else none

/-- The insert `Create(&book)`: fresh key, `AddedDate` from the column default;
the unique index on `isbn` rejects a second book with the same ISBN. -/
def createBook (s : Store) (b : Book) (now : Time) (fails : Bool) : Option (Book × Store) :=
  if fails || s.books.any (fun x => decide (x.ISBN = b.ISBN)) then none
  else
    let row : Book := { b with ID := s.nextBookID, AddedDate := now }
    some (row, { s with books := s.books ++ [row], nextBookID := s.nextBookID + 1 })

/-- The insert `Create(&bookAuthor)`: the composite primary key
`(book_id, author_id)` rejects a second row for the same pair. -/
def createBookAuthor (s : Store) (ba : BookAuthor) (fails : Bool) : Option Store :=
  if fails || s.bookAuthors.any (fun x => decide (x = ba)) then none
  else some { s with bookAuthors := s.bookAuthors ++ [ba] }

/-- The second loop of `CreateBook`: one insert per author id, stopping at the
first insert that fails.  `k` is the ordinal of the next 500-guarded operation.
The flag tells whether the loop ran to its end. -/
def associateAuthors (bookID : Nat) (failAt : Option Nat) :
    Store → Nat → List Nat → Bool × Store
  | s, _, [] => (true, s)
  | s, k, a :: rest =>
    match createBookAuthor s { BookID := bookID, AuthorID := a } (decide (failAt = some k)) with
    | none => (false, s)
    | some s1 => associateAuthors bookID failAt s1 (k + 1) rest

/-- The handler `CreateBook`. -/
def CreateBook (s : Store) (c : Context) (body : Option CreateBookRequest) : Response × Store :=
  match bindCreateBook body with
  | none => (⟨400, .bindError⟩, s)
  | some req =>
    if !(s.genres.any (fun g => decide (g.ID = req.GenreID))) then
      (⟨400, .error "Genre not found"⟩, s)
    else if (req.AuthorIDs.getD []).any
        (fun a => !(s.authors.any (fun x => decide (x.ID = a)))) then
      (⟨400, .error "One or more authors not found"⟩, s)
    else
      let book : Book :=
        { ID := 0, Title := req.Title, Description := req.Description,
          PublicationYear := req.PublicationYear, ISBN := req.ISBN, GenreID := req.GenreID,
          TotalCopies := req.TotalCopies, AvailableCopies := req.TotalCopies,
          CoverURL := req.CoverURL, AddedDate := 0 }
      match createBook s book c.now (decide (c.failAt = some 0)) with
      | none => (⟨500, .error "Failed to create book"⟩, s)
      | some (row, s1) =>
        match associateAuthors row.ID c.failAt s1 1 (req.AuthorIDs.getD []) with
        | (false, s2) => (⟨500, .error "Failed to associate authors with book"⟩, s2)
        | (true, s2) => (⟨201, .bookCreated "Book created successfully" row.ID⟩, s2)

/-- The delete `Delete(&book)`: restricted while an order or a review refers to
the book; the rows of `book_authors` go with it. -/
def deleteBook (s : Store) (b : Book) (fails : Bool) : Option Store :=
  if fails || s.orders.any (fun o => decide (o.BookID = b.ID)) ||
      s.reviews.any (fun r => decide (r.BookID = b.ID)) then none
  else
    some { s with
      books := s.books.filter (fun x => decide (x.ID ≠ b.ID)),
      bookAuthors := s.bookAuthors.filter (fun x => decide (x.BookID ≠ b.ID)) }

/-- The handler `DeleteBook`. -/
def DeleteBook (s : Store) (c : Context) : Response × Store :=
  match Atoi c.id with
  | none => (⟨400, .error "Invalid book ID"⟩, s)
  | some bookID =>
    match firstBook s bookID with
    | none => (⟨404, .error "Book not found"⟩, s)
    | some book =>
      match deleteBook s book (decide (c.failAt = some 0)) with
      | none => (⟨500, .error "Failed to delete book"⟩, s)
      | some s1 => (⟨200, .message "Book deleted successfully"⟩, s1)

/-- The rows of the response of `GetBooks`, one per book; `k` is the ordinal of
the next 500-guarded operation (the author fetch of the next book). -/
def bookResponses (s : Store) (failAt : Option Nat) : Nat → List Book → Option (List BookResponse)
  | _, [] => some []
  | k, b :: rest =>
    if failAt = some k then none
    else
      let authors := (s.bookAuthors.filter (fun ba => decide (ba.BookID = b.ID))).map
        (fun ba => ((s.authors.find? (fun a => decide (a.ID = ba.AuthorID))).map
          (fun a => a.Name)).getD "")
      let row : BookResponse :=
        { ID := b.ID, Title := b.Title, Description := b.Description,
          PublicationYear := b.PublicationYear, ISBN := b.ISBN,
          Genre := ((s.genres.find? (fun g => decide (g.ID = b.GenreID))).map
            (fun g => g.Name)).getD "",
          TotalCopies := b.TotalCopies, AvailableCopies := b.AvailableCopies,
          CoverURL := b.CoverURL, AddedDate := b.AddedDate, Authors := authors }
      (bookResponses s failAt (k + 1) rest).map (fun rows => row :: rows)

/-- The handler `GetBooks`. -/
def GetBooks (s : Store) (c : Context) : Response × Store :=
  if c.failAt = some 0 then (⟨500, .error "Failed to fetch books"⟩, s)
  else
    match bookResponses s c.failAt 1 s.books with
    | none => (⟨500, .error "Failed to fetch authors"⟩, s)
    | some rows => (⟨200, .books rows⟩, s)

/-- The handler `Register` (`controllers/auth.go`). -/
def Register (s : Store) (_c : Context) : Response × Store :=
  (⟨200, .message "Register endpoint not implemented"⟩, s)

/-- The handler `Login` (`controllers/auth.go`). -/
def Login (s : Store) (_c : Context) : Response × Store :=
  (⟨200, .message "Login endpoint not implemented"⟩, s)

/-! ## Gates (`middlewares/auth.go`) and routes (`cmd/main.go`) -/

/-- The claims of a token, type `jwt.MapClaims`: `user_id` is the `uint`
conversion of the claim when it is a number, `none` otherwise. -/
structure MapClaims where
  user_id : Option Nat
deriving DecidableEq, Repr

/-- The token that `jwt.Parse` yields; `Claims` is `none` when the claims are
not of type `jwt.MapClaims`. -/
structure Token where
  Valid : Bool
  Claims : Option MapClaims
deriving DecidableEq, Repr

/-- What a gate does: abort the chain with a response (`c.JSON` and `c.Abort`),
or pass the context on (`c.Next`). -/
inductive Outcome where
  | abort (r : Response)
  | next (c : Context)
deriving DecidableEq, Repr

/-- The pieces of a list of characters between occurrences of `sep`. -/
def splitChars (sep : Char) : List Char → List (List Char)
  | [] => [[]]
  | ch :: rest =>
    if ch = sep then [] :: splitChars sep rest
    else
      match splitChars sep rest with
      | [] => [[ch]]
      | piece :: pieces => (ch :: piece) :: pieces

/-- The function `strings.Split` for a one-character separator. -/
def Split (str : String) (sep : Char) : List String :=
  (splitChars sep str.toList).map String.mk

/-- The query `First(&user, uint(userID))`. -/
def firstUser (s : Store) (userID : Nat) : Option User :=
  s.users.find? (fun u => decide (u.ID = userID))

/-- The gate `JWTMiddleware`.  The parameter `jwtParse` stands for `jwt.Parse`
with the key function of the source: `none` when it returns an error. -/
def JWTMiddleware (jwtParse : String → Option Token) (s : Store) (authHeader : String)
    (c : Context) : Outcome :=
  if authHeader = "" then .abort ⟨401, .error "Authorization header required"⟩
  else
    match Split authHeader ' ' with
    | [p0, tokenStr] =>
      if p0 ≠ "Bearer" then .abort ⟨401, .error "Invalid authorization header"⟩
      else
        match jwtParse tokenStr with
        | none => .abort ⟨401, .error "Invalid token"⟩
        | some token =>
          if !token.Valid then .abort ⟨401, .error "Invalid token"⟩
          else
            match token.Claims with
            | none => .abort ⟨401, .error "Invalid token claims"⟩
            | some claims =>
              match claims.user_id with
              | none => .abort ⟨401, .error "Invalid user ID in token"⟩
              | some userID =>
                match firstUser s userID with
                | none => .abort ⟨401, .error "User not found"⟩
                | some user =>
                  if user.Status ≠ "active" then
                    .abort ⟨403, .error "User account is blocked"⟩
                  else .next { c with user_id := some userID, role := some user.Role }
    | _ => .abort ⟨401, .error "Invalid authorization header"⟩

/-- The gate `AdminMiddleware`. -/
def AdminMiddleware (c : Context) : Outcome :=
  if c.role ≠ some "admin" then .abort ⟨403, .error "Admin access required"⟩
  else .next c

/-- The routes registered in `main`. -/
inductive Route where
  | register
  | login
  | getBooks
  | borrowBook
  | returnBook
  | addReview
  | createBook
  | deleteBook
deriving DecidableEq, Repr

/-- An HTTP request as the router and the handlers read it. -/
structure Request where
  route : Route
  /-- The header `Authorization`, empty when absent. -/
  Authorization : String
  /-- The integer denoted by the path parameter `id`, if it is a numeral. -/
  id : Option Int
  /-- The body decoded as a `ReviewRequest`, if it decodes. -/
  reviewBody : Option ReviewRequest
  /-- The body decoded as a `CreateBookRequest`, if it decodes. -/
  bookBody : Option CreateBookRequest
  now : Time
  zone : Zone
  failAt : Option Nat
  /-- Whether the `err == nil` lookup of the handler returns a database error. -/
  lookupErrs : Bool
deriving DecidableEq, Repr

/-- A gate of the chain, reading the store and the request. -/
abbrev Gate := Store → Request → Context → Outcome

/-- The gates in front of each route: none for `/register` and `/login`, the
authentication gate for the group `/books`, and the authorization gate after it
for `POST /books` and `DELETE /books/:id`. -/
def routeGates (jwtParse : String → Option Token) : Route → List Gate
  | .register => []
  | .login => []
  | .getBooks => [fun s req c => JWTMiddleware jwtParse s req.Authorization c]
  | .borrowBook => [fun s req c => JWTMiddleware jwtParse s req.Authorization c]
  | .returnBook => [fun s req c => JWTMiddleware jwtParse s req.Authorization c]
  | .addReview => [fun s req c => JWTMiddleware jwtParse s req.Authorization c]
  | .createBook =>
    [fun s req c => JWTMiddleware jwtParse s req.Authorization c, fun _ _ c => AdminMiddleware c]
  | .deleteBook =>
    [fun s req c => JWTMiddleware jwtParse s req.Authorization c, fun _ _ c => AdminMiddleware c]

/-- The handler registered for each route. -/
def routeHandler (req : Request) : Store → Context → Response × Store :=
  match req.route with
  | .register => Register
  | .login => Login
  | .getBooks => GetBooks
  | .borrowBook => BorrowBookOn req.lookupErrs
  | .returnBook => ReturnBook
  | .addReview => fun s c => AddReviewOn req.lookupErrs s c req.reviewBody
  | .createBook => fun s c => CreateBook s c req.bookBody
  | .deleteBook => DeleteBook

/-- The chain of gates: each runs on the context the previous one passed on, and
the first abort ends the chain. -/
def runGates (s : Store) (req : Request) : List Gate → Context → Outcome
  | [], c => .next c
  | g :: rest, c =>
    match g s req c with
    | .abort r => .abort r
    | .next c1 => runGates s req rest c1

/-- The context a request starts with: no keys set. -/
def Request.context (req : Request) : Context :=
  { id := req.id, user_id := none, role := none, now := req.now, zone := req.zone,
    failAt := req.failAt }

/-- A chain of gates followed by a handler: the handler runs only if no gate
aborted. -/
def serveWith (gates : List Gate) (handler : Store → Context → Response × Store)
    (s : Store) (req : Request) : Response × Store :=
  match runGates s req gates req.context with
  | .abort r => (r, s)
  | .next c => handler s c

/-- The server: the gates and the handler of the route of the request. -/
def serve (jwtParse : String → Option Token) (s : Store) (req : Request) : Response × Store :=
  serveWith (routeGates jwtParse req.route) (routeHandler req) s req

/-! ## Traces of handler calls -/

/-- One call of a handler, with everything it reads besides the store.  The
calls `borrowLookupErr` and `reviewLookupErr` are the calls of `BorrowBook` and
`AddReview` in which the `err == nil` lookup returns a database error. -/
inductive Call where
  | borrow (c : Context)
  | giveBack (c : Context)
  | review (c : Context) (body : Option ReviewRequest)
  | create (c : Context) (body : Option CreateBookRequest)
  | borrowLookupErr (c : Context)
  | reviewLookupErr (c : Context) (body : Option ReviewRequest)

/-- The store after one call. -/
def step (s : Store) : Call → Store
  | .borrow c => (BorrowBook s c).2
  | .giveBack c => (ReturnBook s c).2
  | .review c body => (AddReview s c body).2
  | .create c body => (CreateBook s c body).2
  | .borrowLookupErr c => (BorrowBookOn true s c).2
  | .reviewLookupErr c body => (AddReviewOn true s c body).2

/-- The store after a sequence of calls. -/
def run (s : Store) (calls : List Call) : Store :=
  calls.foldl step s

/-- Only `BorrowBook` and `ReturnBook` calls. -/
def Call.isLending : Call → Bool
  | .borrow _ => true
  | .giveBack _ => true
  | .borrowLookupErr _ => true
  | _ => false

/-- Only `CreateBook` calls. -/
def Call.isCreate : Call → Bool
  | .create _ _ => true
  | _ => false

/-- The context of a call. -/
def Call.ctx : Call → Context
  | .borrow c => c
  | .giveBack c => c
  | .review c _ => c
  | .create c _ => c
  | .borrowLookupErr c => c
  | .reviewLookupErr c _ => c

/-- The call is one in which the `err == nil` lookup returns a database error. -/
def Call.lookupErrs : Call → Bool
  | .borrowLookupErr _ => true
  | .reviewLookupErr _ _ => true
  | _ => false

/-- The call is a `BorrowBook` whose book update (its second write, made after
the order was inserted) is the operation made to fail. -/
def Call.borrowUpdateFails : Call → Bool
  | .borrow c => decide (c.failAt = some 1)
  | .borrowLookupErr c => decide (c.failAt = some 1)
  | _ => false

/-- No persistence operation fails during the call: no lookup returns a database
error and no 500-guarded operation is made to fail. -/
def Call.noFailure (k : Call) : Bool :=
  !k.lookupErrs && k.ctx.failAt.isNone

/-- The number of issued orders for a book. -/
def issuedCount (s : Store) (bookID : Nat) : Nat :=
  s.orders.countP (fun o => decide (o.BookID = bookID) && decide (o.Status = "issued"))

/-- The number of issued orders of one user for one book. -/
def issuedPairCount (s : Store) (userID bookID : Nat) : Nat :=
  s.orders.countP (fun o =>
    decide (o.UserID = userID) && decide (o.BookID = bookID) && decide (o.Status = "issued"))

/-- The number of reviews of one user for one book. -/
def reviewPairCount (s : Store) (userID bookID : Nat) : Nat :=
  s.reviews.countP (fun r => decide (r.UserID = userID) && decide (r.BookID = bookID))

/-! ## Concrete stores and calls used as test inputs -/

/-- A store with one genre, one author, an active user (user 1) and an active
admin (user 2), no books. -/
def demoStore : Store :=
  { users := [{ ID := 1, Name := "ann", Email := "ann@x", PasswordHash := "h", Role := "user",
                RegistrationDate := 0, PhotoURL := none, Status := "active" },
              { ID := 2, Name := "bob", Email := "bob@x", PasswordHash := "h", Role := "admin",
                RegistrationDate := 0, PhotoURL := none, Status := "active" }],
    authors := [{ ID := 1, Name := "a", BirthYear := none, Country := none, Biography := none }],
    genres := [{ ID := 1, Name := "g", Description := none }],
    books := [], bookAuthors := [], orders := [], reviews := [],
    nextBookID := 1, nextOrderID := 1, nextReviewID := 1 }

/-- A well-formed request for a book with two copies and one author. -/
def demoBookRequest : CreateBookRequest :=
  { Title := "t", Description := none, PublicationYear := none, ISBN := "i", GenreID := 1,
    TotalCopies := 2, CoverURL := none, AuthorIDs := some [1] }

/-- A `jwt.Parse` that accepts the token `ann` (user 1), the token `bob` (user 2)
and the token `eve` (user 3), and rejects every other token. -/
def demoParse (tokenStr : String) : Option Token :=
  if tokenStr = "ann" then some { Valid := true, Claims := some { user_id := some 1 } }
  else if tokenStr = "bob" then some { Valid := true, Claims := some { user_id := some 2 } }
  else if tokenStr = "eve" then some { Valid := true, Claims := some { user_id := some 3 } }
  else none

/-- The store `demoStore` with a blocked user (user 3) added. -/
def staffedStore : Store :=
  { demoStore with
    users := demoStore.users ++
      [{ ID := 3, Name := "eve", Email := "eve@x", PasswordHash := "h", Role := "user",
         RegistrationDate := 0, PhotoURL := none, Status := "blocked" }] }

/-- The request `POST /books` with body `demoBookRequest` and the given header. -/
def createRequest (header : String) : Request :=
  { route := .createBook, Authorization := header, id := none, reviewBody := none,
    bookBody := some demoBookRequest, now := 0, zone := utc, failAt := none,
    lookupErrs := false }

/-- A well-formed request that lists author 1 twice. -/
def repeatedAuthorRequest : CreateBookRequest :=
  { demoBookRequest with AuthorIDs := some [1, 1] }

/-- The context of user 1 acting on book 1 at time `now`, in UTC. -/
def demoCtx (now : Time) (failAt : Option Nat) : Context :=
  { id := some 1, user_id := some 1, role := some "user", now := now, zone := utc,
    failAt := failAt }

/-- The context of user 2 acting on book 1 at time `now`, in UTC. -/
def demoCtx2 (now : Time) (failAt : Option Nat) : Context :=
  { id := some 1, user_id := some 2, role := some "admin", now := now, zone := utc,
    failAt := failAt }

/-- The store `demoStore` after one successful `CreateBook`. -/
def demoLibrary : Store :=
  run demoStore [.create (demoCtx 0 none) (some demoBookRequest)]

/-- The book row of `demoLibrary`. -/
def demoBook : Book :=
  { ID := 1, Title := "t", Description := none, PublicationYear := none, ISBN := "i",
    GenreID := 1, TotalCopies := 2, AvailableCopies := 2, CoverURL := none, AddedDate := 0 }

/-- The book row of `lentLibrary`: one of its two copies is lent. -/
def lentBook : Book :=
  { demoBook with AvailableCopies := 1 }

/-- The store `demoLibrary` after user 1 borrowed book 1 at time 5. -/
def lentLibrary : Store :=
  run demoLibrary [.borrow (demoCtx 5 none)]

/-- The store `demoLibrary` after user 1 borrowed book 1 at time 5, returned it at
time 9 and reviewed it at time 10. -/
def reviewedLibrary : Store :=
  run demoLibrary
    [.borrow (demoCtx 5 none), .giveBack (demoCtx 9 none),
     .review (demoCtx 10 none) (some { Rating := 4, Comment := none })]

/-- A zone one hour ahead of UTC that goes two hours ahead at the instant
954032400 (26 March 2000, 01:00 UTC) and back at 972781200 (29 October 2000,
01:00 UTC), as central European time did. -/
def berlin2000 : Zone :=
  { first := 3600, tx := [(954032400, 7200), (972781200, 3600)] }

/-- The store `lentLibrary` after user 1 borrowed book 1 once more, at time 6, in
a run in which the query for an issued order returned a database error: user 1
holds two issued orders, with keys 1 and 2, and no copy is left. -/
def twiceLentLibrary : Store :=
  run lentLibrary [.borrowLookupErr (demoCtx 6 none)]

/-- The store `lentLibrary` after user 2 borrowed book 1 as well: no copy is left. -/
def emptiedLibrary : Store :=
  run lentLibrary [.borrow (demoCtx2 6 none)]

/-- The order row that a successful `BorrowBook` inserts. -/
def borrowRow (s : Store) (c : Context) (userID : Nat) (bookID : Int) : Order :=
  { ID := s.nextOrderID, UserID := userID, BookID := toUint bookID, OrderDate := c.now,
    DueDate := addDays c.zone c.now 14, ReturnDate := none, Status := "issued" }

/-- The order row that a successful `ReturnBook` writes back. -/
def returnRow (c : Context) (order : Order) : Order :=
  { order with
    ReturnDate := some c.now,
    Status := if c.now > order.DueDate then "overdue" else "returned" }

/-- The review row that a successful `AddReview` inserts. -/
def reviewRow (s : Store) (c : Context) (userID : Nat) (bookID : Int) (req : ReviewRequest) :
    Review :=
  { ID := s.nextReviewID, UserID := userID, BookID := toUint bookID, Rating := req.Rating,
    Comment := req.Comment, CreatedAt := c.now }

/-- The store with one more order row. -/
def withOrder (s : Store) (row : Order) : Store :=
  { s with orders := s.orders ++ [row], nextOrderID := s.nextOrderID + 1 }

/-- The store with the order rows of key `row.ID` overwritten. -/
def withSavedOrder (s : Store) (row : Order) : Store :=
  { s with orders := s.orders.map (fun x => if x.ID = row.ID then row else x) }

/-- The store with the book rows of key `row.ID` overwritten. -/
def withSavedBook (s : Store) (row : Book) : Store :=
  { s with books := s.books.map (fun x => if x.ID = row.ID then row else x) }

/-- The store with one more review row. -/
def withReview (s : Store) (row : Review) : Store :=
  { s with reviews := s.reviews ++ [row], nextReviewID := s.nextReviewID + 1 }

/-- No user holds two issued orders for one book. -/
def OneIssued (s : Store) : Prop :=
  ∀ userID bookID, issuedPairCount s userID bookID ≤ 1

/-- Order keys are distinct and below the counter, and every book has a
non-negative available count that adds up with its issued orders to its total
count, an `int`. -/
def Conserved (s : Store) : Prop :=
  (s.orders.map (fun o => o.ID)).Nodup ∧
  (∀ o ∈ s.orders, o.ID < s.nextOrderID) ∧
  ∀ b ∈ s.books, 0 ≤ b.AvailableCopies ∧ b.TotalCopies ≤ maxInt64 ∧
    b.AvailableCopies + issuedCount s b.ID = b.TotalCopies

/-- Every book has a non-negative available count that, together with its issued
orders, does not exceed its total count, an `int`. -/
def Bounded (s : Store) : Prop :=
  ∀ b ∈ s.books, 0 ≤ b.AvailableCopies ∧ b.TotalCopies ≤ maxInt64 ∧
    b.AvailableCopies + issuedCount s b.ID ≤ b.TotalCopies

/-- A store as `CreateBook` calls leave it when they start from no books and no
orders: no orders, and every book has all its copies available, a positive
`int` number of them. -/
def Fresh (s : Store) : Prop :=
  s.orders = [] ∧
  ∀ b ∈ s.books, b.AvailableCopies = b.TotalCopies ∧ 0 < b.TotalCopies ∧
    b.TotalCopies ≤ maxInt64

/-- No user has two reviews for one book. -/
def OneReview (s : Store) : Prop :=
  ∀ userID bookID, reviewPairCount s userID bookID ≤ 1

/-! ## Lookups -/

theorem minByID_eq_none {l : List Order} : minByID l = none ↔ l = [] := by
  cases l with
  | nil => simp [minByID]
  | cons o os =>
    simp only [minByID]
    cases minByID os with
    | none => simp
    | some m => by_cases h : o.ID ≤ m.ID <;> simp [h]

theorem minByID_mem {l : List Order} {m : Order} (h : minByID l = some m) : m ∈ l := by
  induction l generalizing m with
  | nil => simp [minByID] at h
  | cons o os ih =>
    simp only [minByID] at h
    cases hm : minByID os with
    | none =>
      rw [hm] at h
      simp only [Option.some.injEq] at h
      simp [h]
    | some x =>
      rw [hm] at h
      by_cases hle : o.ID ≤ x.ID
      · simp only [hle, if_true, Option.some.injEq] at h
        simp [h]
      · simp only [hle, if_false, Option.some.injEq] at h
        subst h
        exact List.mem_cons_of_mem _ (ih hm)

theorem minByID_le {l : List Order} {m : Order} (h : minByID l = some m) :
    ∀ x ∈ l, m.ID ≤ x.ID := by
  induction l generalizing m with
  | nil => intro x hx; simp at hx
  | cons o os ih =>
    simp only [minByID] at h
    cases hm : minByID os with
    | none =>
      rw [hm] at h
      simp only [Option.some.injEq] at h
      subst h
      have hnil : os = [] := minByID_eq_none.mp hm
      intro x hx
      rw [hnil] at hx
      simp only [List.mem_singleton] at hx
      rw [hx]
    | some y =>
      rw [hm] at h
      have ihy := ih hm
      by_cases hle : o.ID ≤ y.ID
      · simp only [hle, if_true, Option.some.injEq] at h
        subst h
        intro x hx
        rcases List.mem_cons.mp hx with hx | hx
        · rw [hx]
        · exact le_trans hle (ihy x hx)
      · simp only [hle, if_false, Option.some.injEq] at h
        subst h
        intro x hx
        rcases List.mem_cons.mp hx with hx | hx
        · rw [hx]; omega
        · exact ihy x hx

/-- The order that `Where(cond).First` yields has the least key among the
matching ones. -/
theorem firstOrder_le {p : Order → Bool} {os : List Order} {o : Order}
    (h : firstOrder p os = some o) : ∀ x ∈ os, p x = true → o.ID ≤ x.ID := by
  intro x hx hp
  exact minByID_le h x (List.mem_filter.mpr ⟨hx, hp⟩)

/-- In a zone without transitions fourteen calendar days are `14 * 86400` seconds. -/
theorem addDays_fixed (z : Zone) (t : Time) (days : Nat) (h : z.tx = []) :
    addDays z t days = t + days * 86400 := by
  simp only [addDays, Zone.lookup, h, lookupFrom, ite_self]
  by_cases h0 : z.first = 0
  · simp only [h0, ne_eq, not_true_eq_false, if_false]
    have : ((t : Int) + 0 + (days : Int) * 86400) = ((t + days * 86400 : Nat) : Int) := by
      push_cast; ring
    rw [this, Int.toNat_ofNat]
  · simp only [ne_eq, h0, not_false_eq_true, if_true]
    have : ((t : Int) + z.first + (days : Int) * 86400 - z.first) =
        ((t + days * 86400 : Nat) : Int) := by
      push_cast; ring
    rw [this, Int.toNat_ofNat]

/-- Across a change of the offset they are not: 14 days after 20 March 2000,
13:00 on the wall clock of `berlin2000`, is 3 April 2000, 13:00 on that wall
clock, one hour less than `14 * 86400` seconds later. -/
theorem addDays_across_transition :
    addDays berlin2000 953553600 14 = 954759600 ∧
    addDays berlin2000 953553600 14 + 3600 = 953553600 + 14 * 86400 := by
  decide

theorem firstOrder_mem {p : Order → Bool} {os : List Order} {o : Order}
    (h : firstOrder p os = some o) : o ∈ os ∧ p o = true := by
  have := minByID_mem h
  simpa [List.mem_filter] using this

theorem firstOrder_eq_none {p : Order → Bool} {os : List Order} :
    firstOrder p os = none ↔ ∀ o ∈ os, p o = false := by
  unfold firstOrder
  rw [minByID_eq_none, List.filter_eq_nil_iff]
  simp

theorem firstOrder_isSome (p : Order → Bool) (os : List Order) :
    (firstOrder p os).isSome = os.any p := by
  cases h : firstOrder p os with
  | none =>
    have := firstOrder_eq_none.mp h
    simp only [Option.isSome_none]
    symm
    simpa using this
  | some o =>
    have := firstOrder_mem h
    simp only [Option.isSome_some]
    symm
    simp only [List.any_eq_true]
    exact ⟨o, this.1, this.2⟩

theorem firstBook_some {s : Store} {bookID : Int} {b : Book} (h : firstBook s bookID = some b) :
    b ∈ s.books ∧ (b.ID : Int) = bookID := by
  unfold firstBook at h
  refine ⟨List.mem_of_find?_eq_some h, ?_⟩
  simpa using List.find?_some h

theorem firstBook_eq_none {s : Store} {bookID : Int} :
    firstBook s bookID = none ↔ ∀ b ∈ s.books, (b.ID : Int) ≠ bookID := by
  unfold firstBook
  simp

theorem Atoi_some {numeral : Option Int} {v : Int} (h : Atoi numeral = some v) :
    numeral = some v ∧ minInt64 ≤ v ∧ v ≤ maxInt64 := by
  unfold Atoi at h
  cases numeral with
  | none => simp at h
  | some n =>
    by_cases hr : minInt64 ≤ n ∧ n ≤ maxInt64
    · simp only [hr, and_self, if_true, Option.some.injEq] at h
      subst h
      exact ⟨rfl, hr⟩
    · simp [hr] at h

theorem toUint_of_key {n : Nat} {v : Int} (h : (n : Int) = v) (hv : v ≤ maxInt64) :
    toUint v = n := by
  unfold toUint
  unfold maxInt64 at hv
  omega

theorem wrapInt64_of_range {x : Int} (h1 : minInt64 ≤ x) (h2 : x ≤ maxInt64) :
    wrapInt64 x = x := by
  unfold wrapInt64
  unfold minInt64 at h1
  unfold maxInt64 at h2
  omega

/-! ## What one handler run does -/

/-- The successful run of `BorrowBook`. -/
theorem BorrowBookOn_ok {e : Bool} {s : Store} {c : Context} {userID : Nat} {bookID : Int}
    {book : Book}
    (hid : Atoi c.id = some bookID) (hu : c.user_id = some userID)
    (hb : firstBook s bookID = some book) (hav : 0 < book.AvailableCopies)
    (hno : e = true ∨ firstOrder (issuedBy userID bookID) s.orders = none)
    (huser : s.users.any (fun u => decide (u.ID = userID)) = true)
    (hf0 : c.failAt ≠ some 0) (hf1 : c.failAt ≠ some 1) :
    BorrowBookOn e s c =
      (⟨200, .borrowed "Book borrowed successfully" (addDays c.zone c.now 14)⟩,
        withSavedBook (withOrder s (borrowRow s c userID bookID))
          { book with AvailableCopies := wrapInt64 (book.AvailableCopies - 1) }) := by
  unfold BorrowBookOn
  simp only [hid, hu, hb]
  have hav2 : ¬ book.AvailableCopies ≤ 0 := by omega
  have hchk : (!e && (firstOrder (issuedBy userID bookID) s.orders).isSome) = false := by
    rcases hno with h | h
    · simp [h]
    · simp [h]
  simp [hav2, hchk, createOrder, huser, saveBook, hf0, hf1, withSavedBook, withOrder, borrowRow]

/-- The run of `BorrowBook` in which the order is inserted and the book update fails. -/
theorem BorrowBookOn_half {e : Bool} {s : Store} {c : Context} {userID : Nat} {bookID : Int}
    {book : Book}
    (hid : Atoi c.id = some bookID) (hu : c.user_id = some userID)
    (hb : firstBook s bookID = some book) (hav : 0 < book.AvailableCopies)
    (hno : e = true ∨ firstOrder (issuedBy userID bookID) s.orders = none)
    (huser : s.users.any (fun u => decide (u.ID = userID)) = true)
    (hf1 : c.failAt = some 1) :
    BorrowBookOn e s c =
      (⟨500, .error "Failed to update book availability"⟩,
        withOrder s (borrowRow s c userID bookID)) := by
  unfold BorrowBookOn
  simp only [hid, hu, hb]
  have hav2 : ¬ book.AvailableCopies ≤ 0 := by omega
  have hchk : (!e && (firstOrder (issuedBy userID bookID) s.orders).isSome) = false := by
    rcases hno with h | h
    · simp [h]
    · simp [h]
  simp [hav2, hchk, createOrder, huser, saveBook, hf1, withOrder, borrowRow]

/-- Every run of `BorrowBook`: a rejection or a failed insert leaves the store as
it was, otherwise the order is inserted and the book update succeeds or fails. -/
theorem BorrowBookOn_cases (e : Bool) (s : Store) (c : Context) :
    ((BorrowBookOn e s c).2 = s ∧ (BorrowBookOn e s c).1.status ≠ 200) ∨
    ∃ userID bookID book,
      Atoi c.id = some bookID ∧ c.user_id = some userID ∧
      firstBook s bookID = some book ∧ 0 < book.AvailableCopies ∧
      (e = true ∨ firstOrder (issuedBy userID bookID) s.orders = none) ∧
      s.users.any (fun u => decide (u.ID = userID)) = true ∧
      ((c.failAt = some 1 ∧
          BorrowBookOn e s c =
            (⟨500, .error "Failed to update book availability"⟩,
              withOrder s (borrowRow s c userID bookID))) ∨
       (c.failAt ≠ some 0 ∧ c.failAt ≠ some 1 ∧
          BorrowBookOn e s c =
            (⟨200, .borrowed "Book borrowed successfully" (addDays c.zone c.now 14)⟩,
              withSavedBook (withOrder s (borrowRow s c userID bookID))
                { book with AvailableCopies := wrapInt64 (book.AvailableCopies - 1) }))) := by
  cases hid : Atoi c.id with
  | none => left; simp [BorrowBookOn, hid]
  | some bookID =>
    cases hu : c.user_id with
    | none => left; simp [BorrowBookOn, hid, hu]
    | some userID =>
      cases hb : firstBook s bookID with
      | none => left; simp [BorrowBookOn, hid, hu, hb]
      | some book =>
        by_cases hav : book.AvailableCopies ≤ 0
        · left; simp [BorrowBookOn, hid, hu, hb, hav]
        · cases hchk : (!e && (firstOrder (issuedBy userID bookID) s.orders).isSome) with
          | true => left; simp [BorrowBookOn, hid, hu, hb, hav, hchk]
          | false =>
            have hno : e = true ∨ firstOrder (issuedBy userID bookID) s.orders = none := by
              cases e with
              | true => exact Or.inl rfl
              | false =>
                right
                simpa using hchk
            by_cases hf0 : c.failAt = some 0
            · left; simp [BorrowBookOn, hid, hu, hb, hav, hchk, createOrder, hf0]
            · cases huser : s.users.any (fun u => decide (u.ID = userID)) with
              | false =>
                left
                simp [BorrowBookOn, hid, hu, hb, hav, hchk, createOrder, hf0, huser]
              | true =>
                right
                refine ⟨userID, bookID, book, rfl, rfl, hb, by omega, hno, huser, ?_⟩
                by_cases hf1 : c.failAt = some 1
                · exact Or.inl ⟨hf1, BorrowBookOn_half hid hu hb (by omega) hno huser hf1⟩
                · exact Or.inr
                    ⟨hf0, hf1, BorrowBookOn_ok hid hu hb (by omega) hno huser hf0 hf1⟩

/-- The successful run of `BorrowBook` when the lookup answers. -/
theorem BorrowBook_ok {s : Store} {c : Context} {userID : Nat} {bookID : Int} {book : Book}
    (hid : Atoi c.id = some bookID) (hu : c.user_id = some userID)
    (hb : firstBook s bookID = some book) (hav : 0 < book.AvailableCopies)
    (hno : firstOrder (issuedBy userID bookID) s.orders = none)
    (huser : s.users.any (fun u => decide (u.ID = userID)) = true)
    (hf0 : c.failAt ≠ some 0) (hf1 : c.failAt ≠ some 1) :
    BorrowBook s c =
      (⟨200, .borrowed "Book borrowed successfully" (addDays c.zone c.now 14)⟩,
        withSavedBook (withOrder s (borrowRow s c userID bookID))
          { book with AvailableCopies := wrapInt64 (book.AvailableCopies - 1) }) :=
  BorrowBookOn_ok hid hu hb hav (Or.inr hno) huser hf0 hf1

/-- Every run of `BorrowBook` when the lookup answers. -/
theorem BorrowBook_cases (s : Store) (c : Context) :
    ((BorrowBook s c).2 = s ∧ (BorrowBook s c).1.status ≠ 200) ∨
    ∃ userID bookID book,
      Atoi c.id = some bookID ∧ c.user_id = some userID ∧
      firstBook s bookID = some book ∧ 0 < book.AvailableCopies ∧
      firstOrder (issuedBy userID bookID) s.orders = none ∧
      ((c.failAt = some 1 ∧
          BorrowBook s c =
            (⟨500, .error "Failed to update book availability"⟩,
              withOrder s (borrowRow s c userID bookID))) ∨
       (c.failAt ≠ some 0 ∧ c.failAt ≠ some 1 ∧
          BorrowBook s c =
            (⟨200, .borrowed "Book borrowed successfully" (addDays c.zone c.now 14)⟩,
              withSavedBook (withOrder s (borrowRow s c userID bookID))
                { book with AvailableCopies := wrapInt64 (book.AvailableCopies - 1) }))) := by
  rcases BorrowBookOn_cases false s c with h | ⟨u, b, book, h1, h2, h3, h4, h5, _, h7⟩
  · exact Or.inl h
  · refine Or.inr ⟨u, b, book, h1, h2, h3, h4, ?_, h7⟩
    rcases h5 with h5 | h5
    · cases h5
    · exact h5

/-- The successful run of `ReturnBook`. -/
theorem ReturnBook_ok {s : Store} {c : Context} {userID : Nat} {bookID : Int} {order : Order}
    {book : Book}
    (hid : Atoi c.id = some bookID) (hu : c.user_id = some userID)
    (ho : firstOrder (issuedBy userID bookID) s.orders = some order)
    (hb : firstBook (withSavedOrder s (returnRow c order)) bookID = some book)
    (hf : c.failAt = none) :
    ReturnBook s c =
      (⟨200, .message "Book returned successfully"⟩,
        withSavedBook (withSavedOrder s (returnRow c order))
          { book with AvailableCopies := wrapInt64 (book.AvailableCopies + 1) }) := by
  unfold ReturnBook
  simp only [hid, hu, ho]
  simp only [withSavedOrder, returnRow] at hb
  simp [saveOrder, saveBook, hf, hb, withSavedBook, withSavedOrder, returnRow]

/-- Every run of `ReturnBook`: a rejection or a failed order update leaves the
store as it was; otherwise the order is written back, and either that is all
(the book fetch or the book update fails) or the book count is written too. -/
theorem ReturnBook_cases (s : Store) (c : Context) :
    ((ReturnBook s c).2 = s ∧ (ReturnBook s c).1.status ≠ 200) ∨
    ∃ userID bookID order,
      Atoi c.id = some bookID ∧ c.user_id = some userID ∧
      firstOrder (issuedBy userID bookID) s.orders = some order ∧
      (((ReturnBook s c).1.status = 500 ∧
          (c.failAt = some 1 ∨ c.failAt = some 2 ∨
            firstBook (withSavedOrder s (returnRow c order)) bookID = none) ∧
          (ReturnBook s c).2 = withSavedOrder s (returnRow c order)) ∨
       ∃ book, firstBook (withSavedOrder s (returnRow c order)) bookID = some book ∧
          ReturnBook s c =
            (⟨200, .message "Book returned successfully"⟩,
              withSavedBook (withSavedOrder s (returnRow c order))
                { book with AvailableCopies := wrapInt64 (book.AvailableCopies + 1) })) := by
  cases hid : Atoi c.id with
  | none => left; simp [ReturnBook, hid]
  | some bookID =>
    cases hu : c.user_id with
    | none => left; simp [ReturnBook, hid, hu]
    | some userID =>
      cases ho : firstOrder (issuedBy userID bookID) s.orders with
      | none => left; simp [ReturnBook, hid, hu, ho]
      | some order =>
        by_cases hf0 : c.failAt = some 0
        · left; simp [ReturnBook, hid, hu, ho, saveOrder, hf0]
        · right
          refine ⟨userID, bookID, order, rfl, rfl, ho, ?_⟩
          by_cases hf1 : c.failAt = some 1
          · left
            simp [ReturnBook, hid, hu, ho, saveOrder, hf1, withSavedOrder, returnRow]
          · cases hb : firstBook (withSavedOrder s (returnRow c order)) bookID with
            | none =>
              left
              simp only [withSavedOrder, returnRow] at hb
              simp [ReturnBook, hid, hu, ho, saveOrder, hf0, hf1, hb, withSavedOrder, returnRow]
            | some book =>
              simp only [withSavedOrder, returnRow] at hb
              by_cases hf2 : c.failAt = some 2
              · left
                simp [ReturnBook, hid, hu, ho, saveOrder, saveBook, hf2, hb, withSavedOrder,
                  returnRow]
              · right
                refine ⟨book, rfl, ?_⟩
                simp [ReturnBook, hid, hu, ho, saveOrder, saveBook, hf0, hf1, hf2, hb,
                  withSavedBook, withSavedOrder, returnRow]

/-- Every run of `AddReview`: either the store is left as it was, or all checks
passed and one review row is inserted. -/
theorem AddReviewOn_cases (e : Bool) (s : Store) (c : Context) (body : Option ReviewRequest) :
    ((AddReviewOn e s c body).2 = s ∧ (AddReviewOn e s c body).1.status ≠ 201) ∨
    ∃ userID bookID req book,
      Atoi c.id = some bookID ∧ c.user_id = some userID ∧ bindReview body = some req ∧
      firstBook s bookID = some book ∧
      (∃ o ∈ s.orders, finishedBy userID bookID o = true) ∧
      (e = true ∨ s.reviews.any (reviewedBy userID bookID) = false) ∧
      c.failAt ≠ some 0 ∧
      AddReviewOn e s c body =
        (⟨201, .reviewCreated "Review added successfully" s.nextReviewID⟩,
          withReview s (reviewRow s c userID bookID req)) := by
  cases hid : Atoi c.id with
  | none => left; simp [AddReviewOn, hid]
  | some bookID =>
    cases hu : c.user_id with
    | none => left; simp [AddReviewOn, hid, hu]
    | some userID =>
      cases hq : bindReview body with
      | none => left; simp [AddReviewOn, hid, hu, hq]
      | some req =>
        cases hb : firstBook s bookID with
        | none => left; simp [AddReviewOn, hid, hu, hq, hb]
        | some book =>
          cases ho : firstOrder (finishedBy userID bookID) s.orders with
          | none => left; simp [AddReviewOn, hid, hu, hq, hb, ho]
          | some o =>
            cases hchk : (!e && s.reviews.any (reviewedBy userID bookID)) with
            | true => left; simp [AddReviewOn, hid, hu, hq, hb, ho, hchk]
            | false =>
              have hno : e = true ∨ s.reviews.any (reviewedBy userID bookID) = false := by
                cases e with
                | true => exact Or.inl rfl
                | false =>
                  right
                  simpa using hchk
              by_cases hf0 : c.failAt = some 0
              · left; simp [AddReviewOn, hid, hu, hq, hb, ho, hchk, createReview, hf0]
              · cases huser : s.users.any (fun u => decide (u.ID = userID)) with
                | false =>
                  left
                  simp [AddReviewOn, hid, hu, hq, hb, ho, hchk, createReview, hf0, huser]
                | true =>
                  right
                  refine ⟨userID, bookID, req, book, rfl, rfl, rfl, hb,
                    ⟨o, (firstOrder_mem ho).1, (firstOrder_mem ho).2⟩, hno, hf0, ?_⟩
                  simp [AddReviewOn, hid, hu, hq, hb, ho, hchk, createReview, hf0, huser,
                    withReview, reviewRow]

/-- Every run of `AddReview` when the lookup answers. -/
theorem AddReview_cases (s : Store) (c : Context) (body : Option ReviewRequest) :
    ((AddReview s c body).2 = s ∧ (AddReview s c body).1.status ≠ 201) ∨
    ∃ userID bookID req book,
      Atoi c.id = some bookID ∧ c.user_id = some userID ∧ bindReview body = some req ∧
      firstBook s bookID = some book ∧
      (∃ o ∈ s.orders, finishedBy userID bookID o = true) ∧
      s.reviews.any (reviewedBy userID bookID) = false ∧
      c.failAt ≠ some 0 ∧
      AddReview s c body =
        (⟨201, .reviewCreated "Review added successfully" s.nextReviewID⟩,
          withReview s (reviewRow s c userID bookID req)) := by
  rcases AddReviewOn_cases false s c body with
    h | ⟨u, b, req, book, h1, h2, h3, h4, h5, h6, h7, h8⟩
  · exact Or.inl h
  · refine Or.inr ⟨u, b, req, book, h1, h2, h3, h4, h5, ?_, h7, h8⟩
    rcases h6 with h6 | h6
    · cases h6
    · exact h6

/-- The association loop only appends to `book_authors`. -/
theorem associateAuthors_frame (bookID : Nat) (failAt : Option Nat) (as : List Nat) :
    ∀ (s : Store) (k : Nat),
      ∃ added, (associateAuthors bookID failAt s k as).2 =
        { s with bookAuthors := s.bookAuthors ++ added } := by
  induction as with
  | nil => intro s k; exact ⟨[], by simp [associateAuthors]⟩
  | cons a rest ih =>
    intro s k
    simp only [associateAuthors]
    cases hc : createBookAuthor s { BookID := bookID, AuthorID := a } (decide (failAt = some k)) with
    | none => exact ⟨[], by rw [List.append_nil]⟩
    | some s1 =>
      have hs1 : s1 = { s with bookAuthors := s.bookAuthors ++ [{ BookID := bookID, AuthorID := a }] } := by
        unfold createBookAuthor at hc
        split at hc
        · simp at hc
        · simpa using hc.symm
      obtain ⟨added, h⟩ := ih s1 (k + 1)
      refine ⟨{ BookID := bookID, AuthorID := a } :: added, ?_⟩
      rw [h, hs1]
      simp only [List.append_assoc, List.singleton_append]

/-- Every run of `CreateBook` leaves the orders and reviews alone, and either
leaves the books alone or appends one row whose available count is its total
count, a positive `int`. -/
theorem CreateBook_frame (s : Store) (c : Context) (body : Option CreateBookRequest) :
    (CreateBook s c body).2.orders = s.orders ∧
    (CreateBook s c body).2.reviews = s.reviews ∧
    (CreateBook s c body).2.nextOrderID = s.nextOrderID ∧
    ((CreateBook s c body).2.books = s.books ∨
      ∃ row : Book, (CreateBook s c body).2.books = s.books ++ [row] ∧
        row.AvailableCopies = row.TotalCopies ∧ 0 < row.TotalCopies ∧
        row.TotalCopies ≤ maxInt64) := by
  unfold CreateBook
  cases hq : bindCreateBook body with
  | none => simp
  | some req =>
    have hreq : 0 < req.TotalCopies ∧ req.TotalCopies ≤ maxInt64 := by
      unfold bindCreateBook at hq
      cases body with
      | none => simp at hq
      | some r =>
        simp only at hq
        split at hq
        · rename_i hc
          simp only [Option.some.injEq] at hq
          subst hq
          exact ⟨hc.2.2.2.2.2.2.1, hc.2.1⟩
        · simp at hq
    simp only
    split
    · simp
    · split
      · simp
      · cases hcb : createBook s
            { ID := 0, Title := req.Title, Description := req.Description,
              PublicationYear := req.PublicationYear, ISBN := req.ISBN, GenreID := req.GenreID,
              TotalCopies := req.TotalCopies, AvailableCopies := req.TotalCopies,
              CoverURL := req.CoverURL, AddedDate := 0 } c.now (decide (c.failAt = some 0)) with
        | none => simp
        | some pr =>
          obtain ⟨row, s1⟩ := pr
          unfold createBook at hcb
          split at hcb
          · simp at hcb
          · simp only [Option.some.injEq, Prod.mk.injEq] at hcb
            obtain ⟨hrow, hs1⟩ := hcb
            obtain ⟨added, hadd⟩ :=
              associateAuthors_frame row.ID c.failAt (req.AuthorIDs.getD []) s1 1
            have hfix : ∀ r : Bool × Store, r.2 = (associateAuthors row.ID c.failAt s1 1
                (req.AuthorIDs.getD [])).2 →
                (match r with
                  | (false, s2) =>
                    ((⟨500, .error "Failed to associate authors with book"⟩ : Response), s2)
                  | (true, s2) =>
                    (⟨201, .bookCreated "Book created successfully" row.ID⟩, s2)).2 = r.2 := by
              intro r _
              obtain ⟨b, s2⟩ := r
              cases b <;> rfl
            simp only
            rw [hfix _ rfl, hadd]
            subst hs1
            subst hrow
            exact ⟨rfl, rfl, rfl, Or.inr ⟨_, rfl, rfl, hreq⟩⟩

/-! ## Counting rows -/

theorem countP_map_le {α : Type} (p : α → Bool) (f : α → α) (l : List α)
    (h : ∀ x ∈ l, p (f x) = true → p x = true) : (l.map f).countP p ≤ l.countP p := by
  induction l with
  | nil => simp
  | cons x xs ih =>
    have ih2 := ih (fun y hy => h y (List.mem_cons_of_mem _ hy))
    have hx := h x (List.mem_cons_self _ _)
    simp only [List.map_cons, List.countP_cons]
    by_cases hp : p (f x) = true
    · simp only [hp, hx hp, if_true]; omega
    · by_cases hpx : p x = true
      · simp only [hp, hpx, if_true, if_false, Bool.false_eq_true, reduceIte]; omega
      · simp only [hp, hpx, if_false, Bool.false_eq_true, reduceIte]; omega

theorem map_replace_eq_self (o1 : Order) (key : Nat) (l : List Order)
    (h : ∀ y ∈ l, y.ID ≠ key) : l.map (fun x => if x.ID = key then o1 else x) = l := by
  induction l with
  | nil => rfl
  | cons x xs ih =>
    have hx := h x (List.mem_cons_self _ _)
    simp only [List.map_cons, hx, if_false]
    rw [ih (fun y hy => h y (List.mem_cons_of_mem _ hy))]

/-- Overwriting the one row with the key of `o` changes a count by what `o` and
its replacement contribute. -/
theorem countP_replace (p : Order → Bool) (o o1 : Order) (l : List Order)
    (hnd : (l.map (fun x => x.ID)).Nodup) (hmem : o ∈ l) :
    (l.map (fun x => if x.ID = o.ID then o1 else x)).countP p + (if p o then 1 else 0) =
      l.countP p + (if p o1 then 1 else 0) := by
  induction l with
  | nil => simp at hmem
  | cons x xs ih =>
    simp only [List.map_cons, List.nodup_cons, List.mem_map, not_exists, not_and] at hnd
    rcases List.mem_cons.mp hmem with h | h
    · subst h
      have hid : ∀ y ∈ xs, y.ID ≠ o.ID := fun y hy => hnd.1 y hy
      simp only [List.map_cons, if_true, map_replace_eq_self o1 o.ID xs hid, List.countP_cons]
      omega
    · have hx : x.ID ≠ o.ID := fun e => hnd.1 o h e.symm
      have := ih hnd.2 h
      simp only [List.map_cons, hx, if_false, List.countP_cons]
      omega

theorem map_replace_ids (o1 : Order) (l : List Order) :
    (l.map (fun x => if x.ID = o1.ID then o1 else x)).map (fun x => x.ID) =
      l.map (fun x => x.ID) := by
  induction l with
  | nil => rfl
  | cons x xs ih =>
    simp only [List.map_cons, ih, List.cons.injEq, and_true]
    split <;> simp_all

/-! ## At most one issued order per user and book -/

theorem issuedBy_false_iff {userID : Nat} {bookID : Int} {n : Nat} (hn : (n : Int) = bookID)
    (o : Order) :
    issuedBy userID bookID o = false ↔
      (decide (o.UserID = userID) && decide (o.BookID = n) && decide (o.Status = "issued")) =
        false := by
  unfold issuedBy
  have : ((o.BookID : Int) = bookID) ↔ o.BookID = n := by
    rw [← hn]; exact Int.ofNat_inj
  simp only [this]

theorem oneIssued_BorrowBook (s : Store) (c : Context) (h : OneIssued s) :
    OneIssued (BorrowBook s c).2 := by
  rcases BorrowBook_cases s c with ⟨hs, _⟩ | ⟨userID, bookID, book, hid, _, hb, _, hno, hres⟩
  · rw [hs]; exact h
  · have hkey := (firstBook_some hb).2
    have hu : toUint bookID = book.ID := toUint_of_key hkey (Atoi_some hid).2.2
    have hzero : issuedPairCount s userID book.ID = 0 := by
      unfold issuedPairCount
      rw [List.countP_eq_zero]
      intro o ho
      have := (issuedBy_false_iff hkey o).mp (firstOrder_eq_none.mp hno o ho)
      simp only [this, Bool.false_eq_true, not_false_eq_true]
    have hord : (BorrowBook s c).2.orders = s.orders ++ [borrowRow s c userID bookID] := by
      rcases hres with ⟨_, hr⟩ | ⟨_, _, hr⟩ <;> rw [hr] <;> rfl
    intro u b
    unfold issuedPairCount
    rw [hord, List.countP_append]
    have hub := h u b
    unfold issuedPairCount at hub hzero
    by_cases hm : u = userID ∧ b = book.ID
    · obtain ⟨rfl, rfl⟩ := hm
      rw [hzero]
      simp only [List.countP_cons, List.countP_nil]
      split <;> omega
    · have : (decide ((borrowRow s c userID bookID).UserID = u) &&
          decide ((borrowRow s c userID bookID).BookID = b) &&
          decide ((borrowRow s c userID bookID).Status = "issued")) = false := by
        simp only [borrowRow, hu]
        by_cases h1 : userID = u
        · by_cases h2 : book.ID = b
          · exact absurd ⟨h1.symm, h2.symm⟩ hm
          · simp [h2]
        · simp [h1]
      simp only [List.countP_cons, List.countP_nil, this]
      simpa using hub

theorem returnRow_not_issued (c : Context) (order : Order) :
    (returnRow c order).Status ≠ "issued" := by
  unfold returnRow
  simp only
  split <;> decide

theorem oneIssued_ReturnBook (s : Store) (c : Context) (h : OneIssued s) :
    OneIssued (ReturnBook s c).2 := by
  rcases ReturnBook_cases s c with ⟨hs, _⟩ | ⟨userID, bookID, order, _, _, _, hres⟩
  · rw [hs]; exact h
  · have hord : (ReturnBook s c).2.orders =
        s.orders.map (fun x => if x.ID = (returnRow c order).ID then returnRow c order else x) := by
      rcases hres with ⟨_, _, hr⟩ | ⟨book, _, hr⟩ <;> rw [hr] <;> rfl
    intro u b
    unfold issuedPairCount
    rw [hord]
    refine le_trans (countP_map_le _ _ _ ?_) (h u b)
    intro x _ hx
    split at hx
    · have := returnRow_not_issued c order
      simp [this] at hx
    · exact hx

theorem oneIssued_step (s : Store) (k : Call) (hk : k.lookupErrs = false) (h : OneIssued s) :
    OneIssued (step s k) := by
  cases k with
  | borrowLookupErr c => simp [Call.lookupErrs] at hk
  | reviewLookupErr c body => simp [Call.lookupErrs] at hk
  | borrow c => exact oneIssued_BorrowBook s c h
  | giveBack c => exact oneIssued_ReturnBook s c h
  | review c body =>
    have : (AddReview s c body).2.orders = s.orders := by
      rcases AddReview_cases s c body with ⟨hs, _⟩ | ⟨_, _, _, _, _, _, _, _, _, _, _, hr⟩
      · rw [hs]
      · rw [hr]; rfl
    intro u b
    have := h u b
    unfold issuedPairCount at *
    simp only [step, *]
  | create c body =>
    have := (CreateBook_frame s c body).1
    intro u b
    have := h u b
    unfold issuedPairCount at *
    simp only [step, *]

theorem oneIssued_run (calls : List Call) :
    ∀ s : Store, (∀ k ∈ calls, k.lookupErrs = false) → OneIssued s →
      OneIssued (run s calls) := by
  induction calls with
  | nil => intro s _ h; exact h
  | cons k rest ih =>
    intro s hk h
    exact ih (step s k) (fun x hx => hk x (List.mem_cons_of_mem _ hx))
      (oneIssued_step s k (hk k (List.mem_cons_self _ _)) h)

/-! ## Conservation of copies -/

theorem conserved_BorrowBook (s : Store) (c : Context) (hf : c.failAt = none)
    (h : Conserved s) : Conserved (BorrowBook s c).2 := by
  rcases BorrowBook_cases s c with ⟨hs, _⟩ | ⟨userID, bookID, book, hid, _, hb, hav, _, hres⟩
  · rw [hs]; exact h
  · rcases hres with ⟨h1, _⟩ | ⟨_, _, hr⟩
    · rw [hf] at h1; cases h1
    · obtain ⟨hnd, hlt, hbooks⟩ := h
      have hkey := (firstBook_some hb).2
      have hmem := (firstBook_some hb).1
      have hu : toUint bookID = book.ID := toUint_of_key hkey (Atoi_some hid).2.2
      have hcnt : ∀ x : Nat, issuedCount (BorrowBook s c).2 x =
          issuedCount s x + (if book.ID = x then 1 else 0) := by
        intro x
        rw [hr]
        simp only [issuedCount, withSavedBook, withOrder, borrowRow, hu, List.countP_append,
          List.countP_cons, List.countP_nil]
        by_cases hx : book.ID = x <;> simp [hx]
      refine ⟨?_, ?_, ?_⟩
      · rw [hr]
        simp only [withSavedBook, withOrder, borrowRow, List.map_append, List.map_cons,
          List.map_nil]
        rw [List.nodup_append]
        refine ⟨hnd, List.nodup_singleton _, ?_⟩
        intro a ha hb2
        simp only [List.mem_singleton] at hb2
        obtain ⟨o, ho, rfl⟩ := List.mem_map.mp ha
        have := hlt o ho
        omega
      · rw [hr]
        simp only [withSavedBook, withOrder, borrowRow, List.mem_append, List.mem_singleton]
        rintro o (ho | rfl)
        · have := hlt o ho; omega
        · simp
      · intro b hbmem
        have hb3 : b ∈ s.books.map (fun x => if x.ID = book.ID then
            { book with AvailableCopies := wrapInt64 (book.AvailableCopies - 1) } else x) := by
          rw [hr] at hbmem; exact hbmem
        obtain ⟨b0, hb0, rfl⟩ := List.mem_map.mp hb3
        obtain ⟨hbk0, hbk1, hbk2⟩ := hbooks book hmem
        have hw : wrapInt64 (book.AvailableCopies - 1) = book.AvailableCopies - 1 := by
          apply wrapInt64_of_range
          · unfold minInt64; omega
          · unfold maxInt64 at *; omega
        by_cases hx : b0.ID = book.ID
        · simp only [hx, if_true, hcnt, hw]
          refine ⟨by omega, hbk1, ?_⟩
          push_cast
          omega
        · simp only [hx, if_false, hcnt]
          have hx2 : ¬ book.ID = b0.ID := fun e => hx e.symm
          simp only [hx2, if_false, Nat.add_zero]
          exact hbooks b0 hb0

theorem conserved_ReturnBook (s : Store) (c : Context) (hf : c.failAt = none)
    (h : Conserved s) : Conserved (ReturnBook s c).2 := by
  rcases ReturnBook_cases s c with ⟨hs, _⟩ | ⟨userID, bookID, order, hid, _, ho, hres⟩
  · rw [hs]; exact h
  · obtain ⟨hnd, hlt, hbooks⟩ := h
    obtain ⟨homem, hoissued⟩ := firstOrder_mem ho
    have hostat : order.Status = "issued" := by
      simp only [issuedBy, Bool.and_eq_true, decide_eq_true_eq] at hoissued
      exact hoissued.2
    have hobook : (order.BookID : Int) = bookID := by
      simp only [issuedBy, Bool.and_eq_true, decide_eq_true_eq] at hoissued
      exact hoissued.1.2
    have hord : (ReturnBook s c).2.orders =
        s.orders.map (fun x => if x.ID = order.ID then returnRow c order else x) := by
      rcases hres with ⟨_, _, hr⟩ | ⟨book, _, hr⟩ <;> rw [hr] <;> rfl
    have hnext : (ReturnBook s c).2.nextOrderID = s.nextOrderID := by
      rcases hres with ⟨_, _, hr⟩ | ⟨book, _, hr⟩ <;> rw [hr] <;> rfl
    have hcnt : ∀ x : Nat, issuedCount (ReturnBook s c).2 x + (if order.BookID = x then 1 else 0) =
        issuedCount s x := by
      intro x
      have := countP_replace
        (fun o => decide (o.BookID = x) && decide (o.Status = "issued")) order
        (returnRow c order) s.orders hnd homem
      have hns := returnRow_not_issued c order
      simp only [issuedCount, hord]
      simp only [hostat, hns, decide_True, decide_False, Bool.and_true, Bool.and_false,
        decide_eq_true_eq, Bool.false_eq_true, if_false, Nat.add_zero] at this
      exact this
    have hids : (ReturnBook s c).2.orders.map (fun o => o.ID) = s.orders.map (fun o => o.ID) := by
      rw [hord]
      exact map_replace_ids (returnRow c order) s.orders
    refine ⟨by rw [hids]; exact hnd, ?_, ?_⟩
    · intro o hom
      have : o.ID ∈ (ReturnBook s c).2.orders.map (fun o => o.ID) := List.mem_map_of_mem _ hom
      rw [hids] at this
      obtain ⟨o2, ho2, he⟩ := List.mem_map.mp this
      rw [hnext, ← he]
      exact hlt o2 ho2
    · rcases hres with ⟨_, hwhy, hr⟩ | ⟨book, hb, hr⟩
      · have hnone : firstBook (withSavedOrder s (returnRow c order)) bookID = none := by
          rcases hwhy with h1 | h1 | h1
          · rw [hf] at h1; cases h1
          · rw [hf] at h1; cases h1
          · exact h1
        intro b hbmem
        have hb2 : b ∈ s.books := by rw [hr] at hbmem; exact hbmem
        have hne : (b.ID : Int) ≠ bookID := firstBook_eq_none.mp hnone b hb2
        have hx : ¬ order.BookID = b.ID := by
          intro e; apply hne; rw [← e]; exact hobook
        have := hcnt b.ID
        simp only [hx, if_false, Nat.add_zero] at this
        rw [this]
        exact hbooks b hb2
      · have hkey := (firstBook_some hb).2
        have hmem : book ∈ s.books := (firstBook_some hb).1
        have hbo : order.BookID = book.ID := by
          have : (order.BookID : Int) = (book.ID : Int) := by rw [hobook, hkey]
          exact Int.ofNat_inj.mp this
        intro b hbmem
        have hb3 : b ∈ s.books.map (fun x => if x.ID = book.ID then
            { book with AvailableCopies := wrapInt64 (book.AvailableCopies + 1) } else x) := by
          rw [hr] at hbmem; exact hbmem
        obtain ⟨b0, hb0, rfl⟩ := List.mem_map.mp hb3
        obtain ⟨hbk0, hbk1, hbk2⟩ := hbooks book hmem
        have hc1 := hcnt book.ID
        simp only [hbo, if_true] at hc1
        have hw : wrapInt64 (book.AvailableCopies + 1) = book.AvailableCopies + 1 := by
          apply wrapInt64_of_range
          · unfold minInt64; omega
          · unfold maxInt64 at *; omega
        by_cases hx : b0.ID = book.ID
        · simp only [hx, if_true, hw]
          refine ⟨by omega, hbk1, ?_⟩
          omega
        · simp only [hx, if_false]
          have hx2 : ¬ order.BookID = b0.ID := fun e => hx (by rw [← e, hbo])
          have := hcnt b0.ID
          simp only [hx2, if_false, Nat.add_zero] at this
          rw [this]
          exact hbooks b0 hb0

theorem fresh_step (s : Store) (k : Call) (hk : k.isCreate = true) (h : Fresh s) :
    Fresh (step s k) := by
  cases k with
  | create c body =>
    obtain ⟨ho, _, _, hbk⟩ := CreateBook_frame s c body
    refine ⟨by simp only [step]; rw [ho]; exact h.1, ?_⟩
    intro b hb
    simp only [step] at hb
    rcases hbk with he | ⟨row, he, hrow⟩
    · rw [he] at hb; exact h.2 b hb
    · rw [he] at hb
      rcases List.mem_append.mp hb with hb | hb
      · exact h.2 b hb
      · simp only [List.mem_singleton] at hb
        subst hb; exact hrow
  | borrow c => simp [Call.isCreate] at hk
  | giveBack c => simp [Call.isCreate] at hk
  | review c body => simp [Call.isCreate] at hk
  | borrowLookupErr c => simp [Call.isCreate] at hk
  | reviewLookupErr c body => simp [Call.isCreate] at hk

theorem fresh_run (calls : List Call) :
    ∀ s : Store, (∀ k ∈ calls, k.isCreate = true) → Fresh s → Fresh (run s calls) := by
  induction calls with
  | nil => intro s _ h; exact h
  | cons k rest ih =>
    intro s hk h
    exact ih (step s k) (fun x hx => hk x (List.mem_cons_of_mem _ hx))
      (fresh_step s k (hk k (List.mem_cons_self _ _)) h)

theorem conserved_of_fresh (s : Store) (h : Fresh s) : Conserved s := by
  obtain ⟨ho, hb⟩ := h
  refine ⟨by rw [ho]; exact List.nodup_nil, by rw [ho]; simp, ?_⟩
  intro b hbm
  obtain ⟨h1, h2, h3⟩ := hb b hbm
  refine ⟨by omega, h3, ?_⟩
  simp only [issuedCount, ho, List.countP_nil]
  omega

theorem conserved_step (s : Store) (k : Call) (hk : k.isLending = true)
    (hf : k.noFailure = true) (h : Conserved s) : Conserved (step s k) := by
  cases k with
  | borrow c =>
    have : c.failAt = none := by simpa [Call.noFailure, Call.ctx, Call.lookupErrs] using hf
    exact conserved_BorrowBook s c this h
  | giveBack c =>
    have : c.failAt = none := by simpa [Call.noFailure, Call.ctx, Call.lookupErrs] using hf
    exact conserved_ReturnBook s c this h
  | review c body => simp [Call.isLending] at hk
  | create c body => simp [Call.isLending] at hk
  | borrowLookupErr c => simp [Call.noFailure, Call.lookupErrs] at hf
  | reviewLookupErr c body => simp [Call.isLending] at hk

theorem conserved_run (calls : List Call) :
    ∀ s : Store, (∀ k ∈ calls, k.isLending = true ∧ k.noFailure = true) → Conserved s →
      Conserved (run s calls) := by
  induction calls with
  | nil => intro s _ h; exact h
  | cons k rest ih =>
    intro s hk h
    have h0 := hk k (List.mem_cons_self _ _)
    exact ih (step s k) (fun x hx => hk x (List.mem_cons_of_mem _ hx))
      (conserved_step s k h0.1 h0.2 h)

/-! ## At most one review per user and book -/

theorem oneReview_AddReview (s : Store) (c : Context) (body : Option ReviewRequest)
    (h : OneReview s) : OneReview (AddReview s c body).2 := by
  rcases AddReview_cases s c body with
    ⟨hs, _⟩ | ⟨userID, bookID, req, book, hid, _, _, hb, _, hnone, _, hr⟩
  · rw [hs]; exact h
  · have hkey := (firstBook_some hb).2
    have hu : toUint bookID = book.ID := toUint_of_key hkey (Atoi_some hid).2.2
    have hzero : reviewPairCount s userID book.ID = 0 := by
      unfold reviewPairCount
      rw [List.countP_eq_zero]
      intro r hrm
      have hfalse : reviewedBy userID bookID r = false := by
        by_contra hc
        have : s.reviews.any (reviewedBy userID bookID) = true :=
          List.any_eq_true.mpr ⟨r, hrm, by simpa using hc⟩
        rw [hnone] at this
        cases this
      unfold reviewedBy at hfalse
      have hiff : ((r.BookID : Int) = bookID) ↔ r.BookID = book.ID := by
        rw [← hkey]; exact Int.ofNat_inj
      simp only [hiff] at hfalse
      simp only [hfalse, Bool.false_eq_true, not_false_eq_true]
    intro u b
    rw [hr]
    unfold reviewPairCount
    simp only [withReview, reviewRow, hu, List.countP_append, List.countP_cons, List.countP_nil]
    have hub := h u b
    unfold reviewPairCount at hub hzero
    by_cases hm : u = userID ∧ b = book.ID
    · obtain ⟨rfl, rfl⟩ := hm
      rw [hzero]
      split <;> omega
    · have : (decide (userID = u) && decide (book.ID = b)) = false := by
        by_cases h1 : userID = u
        · by_cases h2 : book.ID = b
          · exact absurd ⟨h1.symm, h2.symm⟩ hm
          · simp [h2]
        · simp [h1]
      simp only [this]
      simpa using hub

theorem oneReview_step (s : Store) (k : Call) (hk : k.lookupErrs = false) (h : OneReview s) :
    OneReview (step s k) := by
  cases k with
  | borrowLookupErr c => simp [Call.lookupErrs] at hk
  | reviewLookupErr c body => simp [Call.lookupErrs] at hk
  | borrow c =>
    have : (BorrowBook s c).2.reviews = s.reviews := by
      rcases BorrowBook_cases s c with ⟨hs, _⟩ | ⟨_, _, _, _, _, _, _, _, hres⟩
      · rw [hs]
      · rcases hres with ⟨_, hr⟩ | ⟨_, _, hr⟩ <;> rw [hr] <;> rfl
    intro u b
    have := h u b
    unfold reviewPairCount at *
    simp only [step, *]
  | giveBack c =>
    have : (ReturnBook s c).2.reviews = s.reviews := by
      rcases ReturnBook_cases s c with ⟨hs, _⟩ | ⟨_, _, _, _, _, _, hres⟩
      · rw [hs]
      · rcases hres with ⟨_, _, hr⟩ | ⟨_, _, hr⟩ <;> rw [hr] <;> rfl
    intro u b
    have := h u b
    unfold reviewPairCount at *
    simp only [step, *]
  | review c body => exact oneReview_AddReview s c body h
  | create c body =>
    have := (CreateBook_frame s c body).2.1
    intro u b
    have := h u b
    unfold reviewPairCount at *
    simp only [step, *]

theorem oneReview_run (calls : List Call) :
    ∀ s : Store, (∀ k ∈ calls, k.lookupErrs = false) → OneReview s →
      OneReview (run s calls) := by
  induction calls with
  | nil => intro s _ h; exact h
  | cons k rest ih =>
    intro s hk h
    exact ih (step s k) (fun x hx => hk x (List.mem_cons_of_mem _ hx))
      (oneReview_step s k (hk k (List.mem_cons_self _ _)) h)

/-! ## Bounds on the available count -/

/-- Overwriting the rows with the key of a counted row `o` by a row that is not
counted lowers the count. -/
theorem countP_replace_lt (p : Order → Bool) (o o1 : Order) (l : List Order)
    (hmem : o ∈ l) (hp : p o = true) (hp1 : p o1 = false) :
    (l.map (fun x => if x.ID = o.ID then o1 else x)).countP p + 1 ≤ l.countP p := by
  induction l with
  | nil => simp at hmem
  | cons x xs ih =>
    have htail : (xs.map (fun x => if x.ID = o.ID then o1 else x)).countP p ≤ xs.countP p := by
      apply countP_map_le
      intro y _ hy
      split at hy
      · rw [hp1] at hy; cases hy
      · exact hy
    rcases List.mem_cons.mp hmem with h | h
    · subst h
      simp only [List.map_cons, if_true, List.countP_cons, hp, hp1, Bool.false_eq_true, if_false]
      omega
    · have := ih h
      by_cases hx : x.ID = o.ID
      · simp only [List.map_cons, hx, if_true, List.countP_cons, hp1, Bool.false_eq_true,
          if_false]
        omega
      · simp only [List.map_cons, hx, if_false, List.countP_cons]
        omega

theorem bounded_of_fresh (s : Store) (h : Fresh s) : Bounded s := by
  intro b hb
  obtain ⟨h1, h2, h3⟩ := (conserved_of_fresh s h).2.2 b hb
  exact ⟨h1, h2, by omega⟩

theorem bounded_BorrowBookOn (e : Bool) (s : Store) (c : Context) (hf : c.failAt ≠ some 1)
    (h : Bounded s) : Bounded (BorrowBookOn e s c).2 := by
  rcases BorrowBookOn_cases e s c with
    ⟨hs, _⟩ | ⟨userID, bookID, book, hid, _, hb, hav, _, _, hres⟩
  · rw [hs]; exact h
  · rcases hres with ⟨h1, _⟩ | ⟨_, _, hr⟩
    · exact absurd h1 hf
    · have hkey := (firstBook_some hb).2
      have hmem := (firstBook_some hb).1
      have hu : toUint bookID = book.ID := toUint_of_key hkey (Atoi_some hid).2.2
      have hcnt : ∀ x : Nat, issuedCount (BorrowBookOn e s c).2 x =
          issuedCount s x + (if book.ID = x then 1 else 0) := by
        intro x
        rw [hr]
        simp only [issuedCount, withSavedBook, withOrder, borrowRow, hu, List.countP_append,
          List.countP_cons, List.countP_nil]
        by_cases hx : book.ID = x <;> simp [hx]
      intro b hbmem
      have hb3 : b ∈ s.books.map (fun x => if x.ID = book.ID then
          { book with AvailableCopies := wrapInt64 (book.AvailableCopies - 1) } else x) := by
        rw [hr] at hbmem; exact hbmem
      obtain ⟨b0, hb0, rfl⟩ := List.mem_map.mp hb3
      obtain ⟨hbk0, hbk1, hbk2⟩ := h book hmem
      have hw : wrapInt64 (book.AvailableCopies - 1) = book.AvailableCopies - 1 := by
        apply wrapInt64_of_range
        · unfold minInt64; omega
        · unfold maxInt64 at *; omega
      by_cases hx : b0.ID = book.ID
      · simp only [hx, if_true, hcnt, hw]
        refine ⟨by omega, hbk1, ?_⟩
        push_cast
        omega
      · simp only [hx, if_false, hcnt]
        have hx2 : ¬ book.ID = b0.ID := fun e => hx e.symm
        simp only [hx2, if_false, Nat.add_zero]
        exact h b0 hb0

theorem bounded_BorrowBook (s : Store) (c : Context) (hf : c.failAt ≠ some 1)
    (h : Bounded s) : Bounded (BorrowBook s c).2 :=
  bounded_BorrowBookOn false s c hf h

theorem bounded_ReturnBook (s : Store) (c : Context) (h : Bounded s) :
    Bounded (ReturnBook s c).2 := by
  rcases ReturnBook_cases s c with ⟨hs, _⟩ | ⟨userID, bookID, order, hid, _, ho, hres⟩
  · rw [hs]; exact h
  · obtain ⟨homem, hoissued⟩ := firstOrder_mem ho
    simp only [issuedBy, Bool.and_eq_true, decide_eq_true_eq] at hoissued
    have hns := returnRow_not_issued c order
    have hord : (ReturnBook s c).2.orders =
        s.orders.map (fun x => if x.ID = order.ID then returnRow c order else x) := by
      rcases hres with ⟨_, _, hr⟩ | ⟨book, _, hr⟩ <;> rw [hr] <;> rfl
    have hle : ∀ x : Nat, issuedCount (ReturnBook s c).2 x ≤ issuedCount s x := by
      intro x
      simp only [issuedCount, hord]
      apply countP_map_le
      intro y _ hy
      split at hy
      · simp [hns] at hy
      · exact hy
    rcases hres with ⟨_, _, hr⟩ | ⟨book, hb, hr⟩
    · intro b hbmem
      have hb2 : b ∈ s.books := by rw [hr] at hbmem; exact hbmem
      obtain ⟨h1, h2, h3⟩ := h b hb2
      have := hle b.ID
      exact ⟨h1, h2, by omega⟩
    · have hkey := (firstBook_some hb).2
      have hmem : book ∈ s.books := (firstBook_some hb).1
      have hbo : order.BookID = book.ID := by
        have : (order.BookID : Int) = (book.ID : Int) := by rw [hoissued.1.2, hkey]
        exact Int.ofNat_inj.mp this
      have hlt : issuedCount (ReturnBook s c).2 book.ID + 1 ≤ issuedCount s book.ID := by
        simp only [issuedCount, hord]
        apply countP_replace_lt _ order (returnRow c order) s.orders homem
        · simp [hbo, hoissued.2]
        · simp [hns]
      intro b hbmem
      have hb3 : b ∈ s.books.map (fun x => if x.ID = book.ID then
          { book with AvailableCopies := wrapInt64 (book.AvailableCopies + 1) } else x) := by
        rw [hr] at hbmem; exact hbmem
      obtain ⟨b0, hb0, rfl⟩ := List.mem_map.mp hb3
      obtain ⟨hbk0, hbk1, hbk2⟩ := h book hmem
      have hw : wrapInt64 (book.AvailableCopies + 1) = book.AvailableCopies + 1 := by
        apply wrapInt64_of_range
        · unfold minInt64; omega
        · unfold maxInt64 at *; omega
      by_cases hx : b0.ID = book.ID
      · simp only [hx, if_true, hw]
        exact ⟨by omega, hbk1, by omega⟩
      · simp only [hx, if_false]
        obtain ⟨h1, h2, h3⟩ := h b0 hb0
        have := hle b0.ID
        exact ⟨h1, h2, by omega⟩

theorem bounded_step (s : Store) (k : Call) (hk : k.isLending = true)
    (hf : k.borrowUpdateFails = false) (h : Bounded s) : Bounded (step s k) := by
  cases k with
  | borrow c =>
    have : c.failAt ≠ some 1 := by simpa [Call.borrowUpdateFails] using hf
    exact bounded_BorrowBook s c this h
  | giveBack c => exact bounded_ReturnBook s c h
  | review c body => simp [Call.isLending] at hk
  | create c body => simp [Call.isLending] at hk
  | borrowLookupErr c =>
    have : c.failAt ≠ some 1 := by simpa [Call.borrowUpdateFails] using hf
    exact bounded_BorrowBookOn true s c this h
  | reviewLookupErr c body => simp [Call.isLending] at hk

theorem bounded_run (calls : List Call) :
    ∀ s : Store, (∀ k ∈ calls, k.isLending = true ∧ k.borrowUpdateFails = false) → Bounded s →
      Bounded (run s calls) := by
  induction calls with
  | nil => intro s _ h; exact h
  | cons k rest ih =>
    intro s hk h
    have h0 := hk k (List.mem_cons_self _ _)
    exact ih (step s k) (fun x hx => hk x (List.mem_cons_of_mem _ hx))
      (bounded_step s k h0.1 h0.2 h)

/-! ## The book row after an update -/

/-- After the rows with the key of the looked-up book are overwritten by a row
with that key, the lookup yields the new row. -/
theorem firstBook_withSavedBook {s : Store} {bookID : Int} {book : Book} (row : Book)
    (h : firstBook s bookID = some book) (hrow : row.ID = book.ID) :
    firstBook (withSavedBook s row) bookID = some row := by
  have hkey : (book.ID : Int) = bookID := (firstBook_some h).2
  unfold firstBook at h
  unfold firstBook withSavedBook
  simp only
  generalize s.books = books at h
  induction books with
  | nil => simp at h
  | cons x xs ih =>
    by_cases hx : (x.ID : Int) = bookID
    · have hxb : x = book := by
        simpa [List.find?_cons, hx] using h
      subst hxb
      have hr : (row.ID : Int) = bookID := by rw [hrow]; exact hx
      have hc : x.ID = row.ID := hrow.symm
      rw [List.map_cons, if_pos hc, List.find?_cons]
      simp only [hr, decide_True]
    · have hne : ¬ x.ID = row.ID := by
        intro e
        apply hx
        rw [e, hrow]
        exact hkey
      have hxs : List.find? (fun b => decide ((b.ID : Int) = bookID)) xs = some book := by
        simpa [List.find?_cons, hx] using h
      simp only [List.map_cons, hne, if_false, List.find?_cons, hx, decide_False]
      exact ih hxs

/-! ## The association loop of `CreateBook` -/

theorem associateAuthors_ok (bookID : Nat) (as : List Nat) (hnd : as.Nodup) :
    ∀ (s : Store) (k : Nat),
      (∀ a ∈ as, ({ BookID := bookID, AuthorID := a } : BookAuthor) ∉ s.bookAuthors) →
      associateAuthors bookID none s k as =
        (true, { s with bookAuthors :=
          s.bookAuthors ++ as.map (fun a => { BookID := bookID, AuthorID := a }) }) := by
  induction as with
  | nil => intro s k _; simp [associateAuthors]
  | cons a rest ih =>
    intro s k hfree
    have hnd2 := List.nodup_cons.mp hnd
    have ha : ¬ (s.bookAuthors.any
        (fun x => decide (x = ({ BookID := bookID, AuthorID := a } : BookAuthor))) = true) := by
      intro hc
      obtain ⟨x, hx, he⟩ := List.any_eq_true.mp hc
      simp only [decide_eq_true_eq] at he
      subst he
      exact hfree a (List.mem_cons_self _ _) hx
    simp only [associateAuthors, createBookAuthor, ha, Bool.or_false, decide_False,
      Bool.false_eq_true, if_false, reduceCtorEq]
    rw [ih hnd2.2]
    · simp only [List.map_cons, List.append_assoc, List.singleton_append]
    · intro b hb hmem
      simp only [List.mem_append, List.mem_singleton, BookAuthor.mk.injEq, true_and] at hmem
      rcases hmem with hmem | hmem
      · exact hfree b (List.mem_cons_of_mem _ hb) hmem
      · subst hmem; exact hnd2.1 hb

/-! ## Runs in which the lookups answer, and what a review needs -/

/-- From a store with no orders, after any calls in which no `err == nil` lookup
returns a database error (whichever 500-guarded operations fail), each user has
at most one issued order for each book. -/
theorem issued_once_of_no_orders (s : Store) (calls : List Call) (h0 : s.orders = [])
    (hk : ∀ k ∈ calls, k.lookupErrs = false) (userID bookID : Nat) :
    issuedPairCount (run s calls) userID bookID ≤ 1 := by
  apply oneIssued_run calls s hk
  intro u b
  simp [issuedPairCount, h0]

/-- From a store with no reviews, after any calls in which no `err == nil`
lookup returns a database error, each user has at most one review for each
book. -/
theorem reviewed_once_of_no_reviews (s : Store) (calls : List Call) (h0 : s.reviews = [])
    (hk : ∀ k ∈ calls, k.lookupErrs = false) (userID bookID : Nat) :
    reviewPairCount (run s calls) userID bookID ≤ 1 := by
  apply oneReview_run calls s hk
  intro u b
  simp [reviewPairCount, h0]

/-- In every run, `AddReview` either adds no review or adds exactly one, for the
calling user and the addressed book, while that user has an order for that
book with status `returned` or `overdue`. -/
theorem review_needs_finished_order (e : Bool) (s : Store) (c : Context)
    (body : Option ReviewRequest) :
    (AddReviewOn e s c body).2.reviews = s.reviews ∨
    ∃ row,
      (AddReviewOn e s c body).2.reviews = s.reviews ++ [row] ∧
      c.user_id = some row.UserID ∧ Atoi c.id = some (row.BookID : Int) ∧
      ∃ o ∈ s.orders,
        o.UserID = row.UserID ∧ o.BookID = row.BookID ∧
        (o.Status = "returned" ∨ o.Status = "overdue") := by
  rcases AddReviewOn_cases e s c body with
    ⟨hs, _⟩ | ⟨userID, bookID, req, book, hid, hu, _, hb, ⟨o, ho, hfin⟩, _, _, hr⟩
  · left; rw [hs]
  · right
    have hkey := (firstBook_some hb).2
    have hu2 : toUint bookID = book.ID := toUint_of_key hkey (Atoi_some hid).2.2
    refine ⟨reviewRow s c userID bookID req, by rw [hr]; rfl, hu, ?_, o, ho, ?_⟩
    · simp only [reviewRow, hu2, hkey, hid]
    · simp only [finishedBy, Bool.and_eq_true, Bool.or_eq_true, decide_eq_true_eq] at hfin
      refine ⟨hfin.1.1, ?_, hfin.2⟩
      simp only [reviewRow, hu2]
      have : (o.BookID : Int) = (book.ID : Int) := by rw [hfin.1.2, hkey]
      exact Int.ofNat_inj.mp this

/-- In every run, lookup errors included, an answer 400, 401 or 404 of
`BorrowBook` or `AddReview` leaves the store as it was. -/
theorem rejections_leave_store_on (e : Bool) (s : Store) (c : Context)
    (body : Option ReviewRequest) :
    (((BorrowBookOn e s c).1.status = 400 ∨ (BorrowBookOn e s c).1.status = 401 ∨
        (BorrowBookOn e s c).1.status = 404) → (BorrowBookOn e s c).2 = s) ∧
    (((AddReviewOn e s c body).1.status = 400 ∨ (AddReviewOn e s c body).1.status = 401 ∨
        (AddReviewOn e s c body).1.status = 404) → (AddReviewOn e s c body).2 = s) := by
  refine ⟨?_, ?_⟩
  · intro hst
    rcases BorrowBookOn_cases e s c with ⟨hs, _⟩ | ⟨_, _, _, _, _, _, _, _, _, hres⟩
    · exact hs
    · rcases hres with ⟨_, hr⟩ | ⟨_, _, hr⟩ <;> rw [hr] at hst <;> simp at hst
  · intro hst
    rcases AddReviewOn_cases e s c body with ⟨hs, _⟩ | ⟨_, _, _, _, _, _, _, _, _, _, _, hr⟩
    · exact hs
    · rw [hr] at hst; simp at hst

/-! ## The claims -/

/-- C1 (as amended).  From a store with no books and no orders, after any
`CreateBook` calls and then any `BorrowBook` and `ReturnBook` calls among which
no `BorrowBook` has its book update fail after its order was inserted (every
other persistence operation may fail), every book has
`0 ≤ available_copies ≤ total_copies`. -/
theorem C1_copies_within_bounds (s0 : Store) (creates lends : List Call)
    (hb : s0.books = []) (ho : s0.orders = [])
    (hc : ∀ k ∈ creates, k.isCreate = true)
    (hl : ∀ k ∈ lends, k.isLending = true ∧ k.borrowUpdateFails = false) :
    ∀ b ∈ (run (run s0 creates) lends).books,
      0 ≤ b.AvailableCopies ∧ b.AvailableCopies ≤ b.TotalCopies := by
  have hfresh : Fresh s0 := ⟨ho, by rw [hb]; simp⟩
  have hbd := bounded_run lends _ hl (bounded_of_fresh _ (fresh_run creates s0 hc hfresh))
  intro b hbm
  obtain ⟨h1, _, h3⟩ := hbd b hbm
  exact ⟨h1, by omega⟩

/-- C1, witness: a book with two copies, borrowed by user 1, returned in a run
whose book update fails, borrowed again and returned: one copy is available. -/
theorem C1_copies_within_bounds_witness :
    { demoBook with AvailableCopies := 1 } ∈
      (run (run demoStore [.create (demoCtx 0 none) (some demoBookRequest)])
        [.borrow (demoCtx 5 none), .giveBack (demoCtx 9 (some 2)),
         .borrow (demoCtx 10 none), .giveBack (demoCtx 11 none)]).books ∧
    0 ≤ ({ demoBook with AvailableCopies := 1 } : Book).AvailableCopies ∧
    ({ demoBook with AvailableCopies := 1 } : Book).AvailableCopies ≤
      ({ demoBook with AvailableCopies := 1 } : Book).TotalCopies :=
  ⟨by decide,
    C1_copies_within_bounds demoStore [.create (demoCtx 0 none) (some demoBookRequest)]
      [.borrow (demoCtx 5 none), .giveBack (demoCtx 9 (some 2)),
       .borrow (demoCtx 10 none), .giveBack (demoCtx 11 none)] rfl rfl (by decide) (by decide)
      { demoBook with AvailableCopies := 1 } (by decide)⟩

/-- C1, counterexample to the claim as stated: the book is created with two
copies, user 1 borrows it in a run whose book update fails after the order was
inserted (answered 500), and then returns it; the book ends with three available
copies of two. -/
theorem C1_counterexample :
    demoStore.books = [] ∧ demoStore.orders = [] ∧
    (∀ k ∈ [Call.create (demoCtx 0 none) (some demoBookRequest)], k.isCreate = true) ∧
    (∀ k ∈ [Call.borrow (demoCtx 5 (some 1)), Call.giveBack (demoCtx 9 none)],
      k.isLending = true) ∧
    ¬ ∀ b ∈ (run (run demoStore [.create (demoCtx 0 none) (some demoBookRequest)])
        [.borrow (demoCtx 5 (some 1)), .giveBack (demoCtx 9 none)]).books,
      0 ≤ b.AvailableCopies ∧ b.AvailableCopies ≤ b.TotalCopies := by
  decide

/-- C2 (the code breaks the claim).  In `demoLibrary`, which holds no orders,
user 1 borrows book 1 (200) and then borrows it again in a run in which the
query for an issued order returns a database error: the handler tests only
`err == nil`, goes on to the insert and answers 200, and user 1 holds two
issued orders for book 1.  In the same store the same request is answered 400
"You have already borrowed this book" when the query answers. -/
theorem C2_lookup_error_second_order :
    demoLibrary.orders = [] ∧
    (BorrowBook demoLibrary (demoCtx 5 none)).1.status = 200 ∧
    lentLibrary = (BorrowBook demoLibrary (demoCtx 5 none)).2 ∧
    (BorrowBookOn true lentLibrary (demoCtx 6 none)).1.status = 200 ∧
    issuedPairCount
      (run demoLibrary [.borrow (demoCtx 5 none), .borrowLookupErr (demoCtx 6 none)]) 1 1 = 2 ∧
    BorrowBook lentLibrary (demoCtx 6 none) =
      (⟨400, .error "You have already borrowed this book"⟩, lentLibrary) := by
  decide

/-- C3 (as amended).  When the user has a row (the authentication gate passes on
no other), the book exists with a positive available count (an `int`), the user
holds no issued order for it and no persistence operation is made to fail,
`BorrowBook` answers 200 with `due_date = now + 14 days`, appends exactly one
order (this user, this book, status issued, `order_date = now`, the same
`due_date`), lowers the available count of the book by one, and changes nothing
else.  The 14 days are calendar days in the zone of the process, as `AddDate`
counts them; in a zone without transitions they are `14 * 86400` seconds. -/
theorem C3_borrow_success (s : Store) (c : Context) (userID : Nat) (bookID : Int) (book : Book)
    (hid : Atoi c.id = some bookID) (hu : c.user_id = some userID)
    (huser : ∃ u ∈ s.users, u.ID = userID)
    (hb : firstBook s bookID = some book)
    (hav : 0 < book.AvailableCopies) (hty : book.AvailableCopies ≤ maxInt64)
    (hno : ∀ o ∈ s.orders, ¬ (o.UserID = userID ∧ o.BookID = book.ID ∧ o.Status = "issued"))
    (hf : c.failAt = none) :
    BorrowBook s c =
      (⟨200, .borrowed "Book borrowed successfully" (addDays c.zone c.now 14)⟩,
        { s with
          orders := s.orders ++
            [{ ID := s.nextOrderID, UserID := userID, BookID := book.ID, OrderDate := c.now,
               DueDate := addDays c.zone c.now 14, ReturnDate := none, Status := "issued" }],
          nextOrderID := s.nextOrderID + 1,
          books := s.books.map (fun x =>
            if x.ID = book.ID then
              { book with AvailableCopies := book.AvailableCopies - 1 }
            else x) }) ∧
    (c.zone.tx = [] → addDays c.zone c.now 14 = c.now + 14 * 86400) := by
  have hkey := (firstBook_some hb).2
  have hu2 : toUint bookID = book.ID := toUint_of_key hkey (Atoi_some hid).2.2
  have hno2 : firstOrder (issuedBy userID bookID) s.orders = none := by
    rw [firstOrder_eq_none]
    intro o ho
    rw [issuedBy_false_iff hkey o]
    have := hno o ho
    by_cases h1 : o.UserID = userID <;> by_cases h2 : o.BookID = book.ID <;>
      by_cases h3 : o.Status = "issued" <;> simp_all
  have hw : wrapInt64 (book.AvailableCopies - 1) = book.AvailableCopies - 1 := by
    apply wrapInt64_of_range
    · unfold minInt64; omega
    · unfold maxInt64 at *; omega
  have huser2 : s.users.any (fun u => decide (u.ID = userID)) = true := by
    obtain ⟨u, hum, hue⟩ := huser
    exact List.any_eq_true.mpr ⟨u, hum, by simpa using hue⟩
  refine ⟨?_, addDays_fixed c.zone c.now 14⟩
  rw [BorrowBook_ok hid hu hb hav hno2 huser2 (by rw [hf]; simp) (by rw [hf]; simp)]
  simp only [withSavedBook, withOrder, borrowRow, hu2, hw]

/-- C3, witness: user 1 borrows book 1 of `demoLibrary` at time 5. -/
theorem C3_borrow_success_witness :
    BorrowBook demoLibrary (demoCtx 5 none) =
      (⟨200, .borrowed "Book borrowed successfully" (5 + 14 * 86400)⟩, lentLibrary) :=
  (C3_borrow_success demoLibrary (demoCtx 5 none) 1 1 demoBook
    (by decide) (by decide) (by decide) (by decide) (by decide) (by decide) (by decide)
    (by decide)).1.trans (by decide)

/-- C3, counterexample to the claim as stated: the book exists with two available
copies and user 1 holds no order, yet in a run whose order insert fails the
answer is 500 and no order is created. -/
theorem C3_counterexample :
    (∃ book, firstBook demoLibrary 1 = some book ∧ 0 < book.AvailableCopies) ∧
    demoLibrary.orders = [] ∧
    (BorrowBook demoLibrary (demoCtx 5 (some 0))).1.status = 500 ∧
    (BorrowBook demoLibrary (demoCtx 5 (some 0))).2.orders = [] := by
  refine ⟨⟨_, rfl, by decide⟩, by decide, by decide, by decide⟩

/-- C4.  For a parseable book id and an authenticated user, `BorrowBook`
answers 404 when the book does not exist; when it exists with no available copy
it answers 400 "No available copies of this book" whatever the orders are (so
also when the user already holds an issued order); when it exists with a copy
available and the user holds an issued order for it, it answers 400 "You have
already borrowed this book".  The store is left as it was each time. -/
theorem C4_borrow_check_order (s : Store) (c : Context) (userID : Nat) (bookID : Int)
    (hid : Atoi c.id = some bookID) (hu : c.user_id = some userID) :
    (firstBook s bookID = none →
      BorrowBook s c = (⟨404, .error "Book not found"⟩, s)) ∧
    (∀ book, firstBook s bookID = some book → book.AvailableCopies ≤ 0 →
      BorrowBook s c = (⟨400, .error "No available copies of this book"⟩, s)) ∧
    (∀ book, firstBook s bookID = some book → 0 < book.AvailableCopies →
      (∃ o ∈ s.orders, o.UserID = userID ∧ (o.BookID : Int) = bookID ∧ o.Status = "issued") →
      BorrowBook s c = (⟨400, .error "You have already borrowed this book"⟩, s)) := by
  refine ⟨?_, ?_, ?_⟩
  · intro hb
    simp [BorrowBook, BorrowBookOn, hid, hu, hb]
  · intro book hb hav
    simp [BorrowBook, BorrowBookOn, hid, hu, hb, hav]
  · intro book hb hav ⟨o, ho, h1, h2, h3⟩
    have hav2 : ¬ book.AvailableCopies ≤ 0 := by omega
    have hsome : (firstOrder (issuedBy userID bookID) s.orders).isSome = true := by
      rw [firstOrder_isSome, List.any_eq_true]
      exact ⟨o, ho, by simp [issuedBy, h1, h2, h3]⟩
    simp [BorrowBook, BorrowBookOn, hid, hu, hb, hav2, hsome]

/-- C4, witness: in `emptiedLibrary` user 1 holds an issued order for book 1 and
no copy is left; a further borrow by user 1 is answered "No available copies". -/
theorem C4_borrow_check_order_witness :
    (∃ o ∈ emptiedLibrary.orders, o.UserID = 1 ∧ o.BookID = 1 ∧ o.Status = "issued") ∧
    BorrowBook emptiedLibrary (demoCtx 7 none) =
      (⟨400, .error "No available copies of this book"⟩, emptiedLibrary) :=
  ⟨by decide,
    (C4_borrow_check_order emptiedLibrary (demoCtx 7 none) 1 1 (by decide) (by decide)).2.1
      { ID := 1, Title := "t", Description := none, PublicationYear := none, ISBN := "i",
        GenreID := 1, TotalCopies := 2, AvailableCopies := 0, CoverURL := none, AddedDate := 0 }
      (by decide) (by decide)⟩

/-- C5 (as amended).  For a parseable book id and an authenticated user:
when the user holds no issued order for the book, `ReturnBook` answers 400 and
changes nothing; when the user holds one, the book exists with an available
count below the largest `int`, and no persistence operation is made to fail, it
answers 200, overwrites one such order (the one with the least key) with
`return_date = now` and status `overdue` if `now > due_date` and `returned`
otherwise, raises the available count of the book by one, and changes nothing
else. -/
theorem C5_return (s : Store) (c : Context) (userID : Nat) (bookID : Int)
    (hid : Atoi c.id = some bookID) (hu : c.user_id = some userID) :
    ((∀ o ∈ s.orders, ¬ (o.UserID = userID ∧ (o.BookID : Int) = bookID ∧ o.Status = "issued")) →
      ReturnBook s c = (⟨400, .error "No active borrow record found for this book"⟩, s)) ∧
    (∀ book,
      (∃ o ∈ s.orders, o.UserID = userID ∧ (o.BookID : Int) = bookID ∧ o.Status = "issued") →
      firstBook s bookID = some book → book.AvailableCopies < maxInt64 →
      minInt64 ≤ book.AvailableCopies → c.failAt = none →
      ∃ order ∈ s.orders,
        order.UserID = userID ∧ (order.BookID : Int) = bookID ∧ order.Status = "issued" ∧
        (∀ o ∈ s.orders, o.UserID = userID → (o.BookID : Int) = bookID →
          o.Status = "issued" → order.ID ≤ o.ID) ∧
        ReturnBook s c =
          (⟨200, .message "Book returned successfully"⟩,
            { s with
              orders := s.orders.map (fun x =>
                if x.ID = order.ID then
                  { order with
                    ReturnDate := some c.now,
                    Status := if c.now > order.DueDate then "overdue" else "returned" }
                else x),
              books := s.books.map (fun x =>
                if x.ID = book.ID then
                  { book with AvailableCopies := book.AvailableCopies + 1 }
                else x) })) := by
  refine ⟨?_, ?_⟩
  · intro hno
    have : firstOrder (issuedBy userID bookID) s.orders = none := by
      rw [firstOrder_eq_none]
      intro o ho
      have := hno o ho
      simp only [issuedBy]
      by_cases h1 : o.UserID = userID <;> by_cases h2 : (o.BookID : Int) = bookID <;>
        by_cases h3 : o.Status = "issued" <;> simp_all
    simp [ReturnBook, hid, hu, this]
  · intro book ⟨o, ho, h1, h2, h3⟩ hb hlt hge hf
    cases hfo : firstOrder (issuedBy userID bookID) s.orders with
    | none =>
      have := firstOrder_eq_none.mp hfo o ho
      simp [issuedBy, h1, h2, h3] at this
    | some order =>
      obtain ⟨hom, hoi⟩ := firstOrder_mem hfo
      simp only [issuedBy, Bool.and_eq_true, decide_eq_true_eq] at hoi
      refine ⟨order, hom, hoi.1.1, hoi.1.2, hoi.2, ?_, ?_⟩
      · intro x hx hx1 hx2 hx3
        exact firstOrder_le hfo x hx (by simp [issuedBy, hx1, hx2, hx3])
      have hw : wrapInt64 (book.AvailableCopies + 1) = book.AvailableCopies + 1 := by
        apply wrapInt64_of_range
        · unfold minInt64 at *; omega
        · unfold maxInt64 at *; omega
      have hb2 : firstBook (withSavedOrder s (returnRow c order)) bookID = some book := hb
      rw [ReturnBook_ok hid hu hfo hb2 hf]
      simp only [withSavedBook, withSavedOrder, returnRow, hw]

/-- C5, witness: in `twiceLentLibrary` user 1 holds the issued orders 1 and 2 for
book 1; a return at time 9, before the due date, overwrites the order with the
least key as `returned` and makes one copy available. -/
theorem C5_return_witness :
    ∃ order ∈ twiceLentLibrary.orders,
      order.UserID = 1 ∧ (order.BookID : Int) = 1 ∧ order.Status = "issued" ∧
      (∀ o ∈ twiceLentLibrary.orders, o.UserID = 1 → (o.BookID : Int) = 1 →
        o.Status = "issued" → order.ID ≤ o.ID) ∧
      ReturnBook twiceLentLibrary (demoCtx 9 none) =
        (⟨200, .message "Book returned successfully"⟩,
          { twiceLentLibrary with
            orders := twiceLentLibrary.orders.map (fun x =>
              if x.ID = order.ID then
                { order with
                  ReturnDate := some 9,
                  Status := if 9 > order.DueDate then "overdue" else "returned" }
              else x),
            books := twiceLentLibrary.books.map (fun x =>
              if x.ID = 1 then
                { ID := 1, Title := "t", Description := none, PublicationYear := none,
                  ISBN := "i", GenreID := 1, TotalCopies := 2, AvailableCopies := 0 + 1,
                  CoverURL := none, AddedDate := 0 }
              else x) }) :=
  (C5_return twiceLentLibrary (demoCtx 9 none) 1 1 (by decide) (by decide)).2
    { ID := 1, Title := "t", Description := none, PublicationYear := none, ISBN := "i",
      GenreID := 1, TotalCopies := 2, AvailableCopies := 0, CoverURL := none, AddedDate := 0 }
    (by decide) (by decide) (by decide) (by decide) (by decide)

/-- C5, counterexample to the claim as stated: user 1 holds an issued order for
book 1, yet in a run whose book update fails the answer is 500, the order is
marked returned and the available count stays at one. -/
theorem C5_counterexample :
    (∃ o ∈ lentLibrary.orders, o.UserID = 1 ∧ o.BookID = 1 ∧ o.Status = "issued") ∧
    (ReturnBook lentLibrary (demoCtx 9 (some 2))).1.status = 500 ∧
    (ReturnBook lentLibrary (demoCtx 9 (some 2))).2.orders.map (fun o => o.Status) =
      ["returned"] ∧
    (ReturnBook lentLibrary (demoCtx 9 (some 2))).2.books.map (fun b => b.AvailableCopies) =
      lentLibrary.books.map (fun b => b.AvailableCopies) := by
  decide

/-- C6 (the code breaks the claim).  In `demoLibrary`, which holds no reviews,
user 1 borrows book 1, returns it and reviews it (201); a further review by
user 1 is answered 400 "You have already reviewed this book" when the query for
a review answers, but in a run in which that query returns a database error the
handler, which tests only `err == nil`, goes on to the insert and answers 201:
user 1 has two reviews for book 1. -/
theorem C6_lookup_error_second_review :
    demoLibrary.reviews = [] ∧
    reviewPairCount reviewedLibrary 1 1 = 1 ∧
    AddReview reviewedLibrary (demoCtx 11 none) (some { Rating := 5, Comment := none }) =
      (⟨400, .error "You have already reviewed this book"⟩, reviewedLibrary) ∧
    (AddReviewOn true reviewedLibrary (demoCtx 11 none)
      (some { Rating := 5, Comment := none })).1.status = 201 ∧
    reviewPairCount (run demoLibrary
      [.borrow (demoCtx 5 none), .giveBack (demoCtx 9 none),
       .review (demoCtx 10 none) (some { Rating := 4, Comment := none }),
       .reviewLookupErr (demoCtx 11 none) (some { Rating := 5, Comment := none })]) 1 1 = 2 := by
  decide

/-- C7.  Whenever `BorrowBook`, `ReturnBook` or `AddReview` answers 400, 401 or
404, the store after the call is the store before it. -/
theorem C7_rejections_leave_store (s : Store) (c : Context) (body : Option ReviewRequest) :
    (((BorrowBook s c).1.status = 400 ∨ (BorrowBook s c).1.status = 401 ∨
        (BorrowBook s c).1.status = 404) → (BorrowBook s c).2 = s) ∧
    (((ReturnBook s c).1.status = 400 ∨ (ReturnBook s c).1.status = 401 ∨
        (ReturnBook s c).1.status = 404) → (ReturnBook s c).2 = s) ∧
    (((AddReview s c body).1.status = 400 ∨ (AddReview s c body).1.status = 401 ∨
        (AddReview s c body).1.status = 404) → (AddReview s c body).2 = s) := by
  refine ⟨?_, ?_, ?_⟩
  · intro hst
    rcases BorrowBook_cases s c with ⟨hs, _⟩ | ⟨_, _, _, _, _, _, _, _, hres⟩
    · exact hs
    · rcases hres with ⟨_, hr⟩ | ⟨_, _, hr⟩ <;> rw [hr] at hst <;> simp at hst
  · intro hst
    rcases ReturnBook_cases s c with ⟨hs, _⟩ | ⟨_, _, _, _, _, _, hres⟩
    · exact hs
    · rcases hres with ⟨h5, _, _⟩ | ⟨_, _, hr⟩
      · rw [h5] at hst; simp at hst
      · rw [hr] at hst; simp at hst
  · intro hst
    rcases AddReview_cases s c body with ⟨hs, _⟩ | ⟨_, _, _, _, _, _, _, _, _, _, _, hr⟩
    · exact hs
    · rw [hr] at hst; simp at hst

/-- C8.  For a parseable book id and an authenticated user, a review body that
does not decode or whose rating is outside `[1, 5]` is answered 400 by the
binding, before any lookup and whatever the store holds, and the store is left
as it was; and every review row that an `AddReview` call adds has a rating in
`[1, 5]`. -/
theorem C8_rating_validated_first (s : Store) (c : Context) (body : Option ReviewRequest)
    (userID : Nat) (bookID : Int)
    (hid : Atoi c.id = some bookID) (hu : c.user_id = some userID)
    (hbad : ∀ req, body = some req → ¬ (1 ≤ req.Rating ∧ req.Rating ≤ 5)) :
    AddReview s c body = (⟨400, .bindError⟩, s) ∧
    ∀ (s1 : Store) (c1 : Context) (body1 : Option ReviewRequest),
      ∀ r ∈ (AddReview s1 c1 body1).2.reviews,
        r ∈ s1.reviews ∨ (1 ≤ r.Rating ∧ r.Rating ≤ 5) := by
  refine ⟨?_, ?_⟩
  · have hq : bindReview body = none := by
      unfold bindReview
      cases body with
      | none => rfl
      | some req =>
        have := hbad req rfl
        simp only
        split
        · rename_i hc; exact absurd hc.2 this
        · rfl
    simp [AddReview, AddReviewOn, hid, hu, hq]
  · intro s1 c1 body1 r hr
    rcases AddReview_cases s1 c1 body1 with
      ⟨hs, _⟩ | ⟨u, b, req, book, _, _, hq, _, _, _, _, hres⟩
    · left; rw [hs] at hr; exact hr
    · rw [hres] at hr
      simp only [withReview, List.mem_append, List.mem_singleton] at hr
      rcases hr with hr | rfl
      · exact Or.inl hr
      · right
        unfold bindReview at hq
        cases body1 with
        | none => simp at hq
        | some q =>
          simp only at hq
          split at hq
          · rename_i hc
            simp only [Option.some.injEq] at hq
            subst hq
            exact hc.2
          · simp at hq

/-- C8, witness: ratings 6, 0 and -1 sent by user 1 for a book that does not
exist (`demoStore` has no books) are answered 400 by the binding. -/
theorem C8_rating_validated_first_witness :
    AddReview demoStore (demoCtx 3 none) (some { Rating := 6, Comment := none }) =
      (⟨400, .bindError⟩, demoStore) ∧
    AddReview demoStore (demoCtx 3 none) (some { Rating := 0, Comment := none }) =
      (⟨400, .bindError⟩, demoStore) ∧
    AddReview demoStore (demoCtx 3 none) (some { Rating := -1, Comment := none }) =
      (⟨400, .bindError⟩, demoStore) :=
  ⟨(C8_rating_validated_first demoStore (demoCtx 3 none) (some { Rating := 6, Comment := none })
      1 1 (by decide) (by decide) (by intro req h; cases h; decide)).1,
   (C8_rating_validated_first demoStore (demoCtx 3 none) (some { Rating := 0, Comment := none })
      1 1 (by decide) (by decide) (by intro req h; cases h; decide)).1,
   (C8_rating_validated_first demoStore (demoCtx 3 none) (some { Rating := -1, Comment := none })
      1 1 (by decide) (by decide) (by intro req h; cases h; decide)).1⟩

/-- C9 (as amended).  For a request that passes the binding (so
`total_copies > 0`): when the genre or one of the listed authors does not exist,
`CreateBook` answers 400 and changes nothing; when they all exist, the ISBN is
not in use, the listed author ids are pairwise distinct, no join row refers to
the key the book will get, and no persistence operation is made to fail, it
answers 201 with the key of the new book, appends one book with
`available_copies = total_copies` and one join row per listed author id, and
changes nothing else. -/
theorem C9_create_book (s : Store) (c : Context) (req : CreateBookRequest)
    (hwf : bindCreateBook (some req) = some req) :
    (((∀ g ∈ s.genres, g.ID ≠ req.GenreID) ∨
        ∃ a ∈ req.AuthorIDs.getD [], ∀ x ∈ s.authors, x.ID ≠ a) →
      (CreateBook s c (some req)).1.status = 400 ∧ (CreateBook s c (some req)).2 = s) ∧
    ((∃ g ∈ s.genres, g.ID = req.GenreID) →
      (∀ a ∈ req.AuthorIDs.getD [], ∃ x ∈ s.authors, x.ID = a) →
      (∀ b ∈ s.books, b.ISBN ≠ req.ISBN) →
      (req.AuthorIDs.getD []).Nodup →
      (∀ ba ∈ s.bookAuthors, ba.BookID ≠ s.nextBookID) →
      c.failAt = none →
      CreateBook s c (some req) =
        (⟨201, .bookCreated "Book created successfully" s.nextBookID⟩,
          { s with
            books := s.books ++
              [{ ID := s.nextBookID, Title := req.Title, Description := req.Description,
                 PublicationYear := req.PublicationYear, ISBN := req.ISBN,
                 GenreID := req.GenreID, TotalCopies := req.TotalCopies,
                 AvailableCopies := req.TotalCopies, CoverURL := req.CoverURL,
                 AddedDate := c.now }],
            nextBookID := s.nextBookID + 1,
            bookAuthors := s.bookAuthors ++
              (req.AuthorIDs.getD []).map
                (fun a => { BookID := s.nextBookID, AuthorID := a }) })) := by
  refine ⟨?_, ?_⟩
  · rintro (hg | ⟨a, ha, hnone⟩)
    · have : s.genres.any (fun g => decide (g.ID = req.GenreID)) = false := by
        rw [List.any_eq_false]
        intro g hgm
        simpa using hg g hgm
      simp [CreateBook, hwf, this]
    · by_cases hgen : s.genres.any (fun g => decide (g.ID = req.GenreID)) = true
      · have : (req.AuthorIDs.getD []).any
            (fun a => !(s.authors.any (fun x => decide (x.ID = a)))) = true := by
          rw [List.any_eq_true]
          refine ⟨a, ha, ?_⟩
          have : s.authors.any (fun x => decide (x.ID = a)) = false := by
            rw [List.any_eq_false]
            intro x hx
            simpa using hnone x hx
          simp [this]
        simp only [CreateBook, hwf, hgen, this, Bool.not_true, Bool.false_eq_true, if_false,
          if_true, and_self]
      · have : s.genres.any (fun g => decide (g.ID = req.GenreID)) = false := by
          simpa using hgen
        simp [CreateBook, hwf, this]
  · rintro ⟨g, hgm, hg⟩ hauth hisbn hnd hfk hf
    have hgen : s.genres.any (fun g => decide (g.ID = req.GenreID)) = true :=
      List.any_eq_true.mpr ⟨g, hgm, by simpa using hg⟩
    have hall : (req.AuthorIDs.getD []).any
        (fun a => !(s.authors.any (fun x => decide (x.ID = a)))) = false := by
      rw [List.any_eq_false]
      intro a ha
      obtain ⟨x, hx, he⟩ := hauth a ha
      have : s.authors.any (fun x => decide (x.ID = a)) = true :=
        List.any_eq_true.mpr ⟨x, hx, by simpa using he⟩
      simp [this]
    have hnew : s.books.any (fun x => decide (x.ISBN = req.ISBN)) = false := by
      rw [List.any_eq_false]
      intro b hb
      simpa using hisbn b hb
    have hloop := associateAuthors_ok s.nextBookID (req.AuthorIDs.getD []) hnd
      { s with
        books := s.books ++
          [{ ID := s.nextBookID, Title := req.Title, Description := req.Description,
             PublicationYear := req.PublicationYear, ISBN := req.ISBN,
             GenreID := req.GenreID, TotalCopies := req.TotalCopies,
             AvailableCopies := req.TotalCopies, CoverURL := req.CoverURL,
             AddedDate := c.now }],
        nextBookID := s.nextBookID + 1 } 1
      (by
        intro a _ hmem
        exact hfk _ hmem rfl)
    simp only [CreateBook, hwf, hgen, hall, createBook, hnew, hf, Bool.not_true,
      Bool.false_eq_true, if_false, Bool.or_false, decide_False, reduceCtorEq, hloop]

/-- C9, witness: the request `demoBookRequest` on `demoStore` is answered 201 with
key 1, one book row and one join row. -/
theorem C9_create_book_witness :
    CreateBook demoStore (demoCtx 0 none) (some demoBookRequest) =
      (⟨201, .bookCreated "Book created successfully" 1⟩, demoLibrary) :=
  ((C9_create_book demoStore (demoCtx 0 none) demoBookRequest (by decide)).2
    (by decide) (by decide) (by decide) (by decide) (by decide) (by decide)).trans (by decide)

/-- C9, counterexample to the claim as stated: the request is well-formed, genre 1
and author 1 exist and no persistence operation is made to fail, yet the second
join row for the pair (book, author 1) violates the composite key: the answer
is 500, the book is persisted and one join row exists for the two listed ids. -/
theorem C9_counterexample :
    bindCreateBook (some repeatedAuthorRequest) = some repeatedAuthorRequest ∧
    (∃ g ∈ demoStore.genres, g.ID = repeatedAuthorRequest.GenreID) ∧
    (∀ a ∈ repeatedAuthorRequest.AuthorIDs.getD [], ∃ x ∈ demoStore.authors, x.ID = a) ∧
    (CreateBook demoStore (demoCtx 0 none) (some repeatedAuthorRequest)).1.status = 500 ∧
    (CreateBook demoStore (demoCtx 0 none) (some repeatedAuthorRequest)).2.books.length = 1 ∧
    (CreateBook demoStore (demoCtx 0 none) (some repeatedAuthorRequest)).2.bookAuthors =
      [{ BookID := 1, AuthorID := 1 }] := by
  decide

/-- C10.  The authentication gate aborts with 401 when the header is empty, when
it does not split at spaces into exactly two parts the first of which is
`Bearer`, when the token does not parse, is not valid or carries no usable
`user_id`, and when no user has that id; it aborts with 403 when the user is not
`active`; otherwise it passes on the context with the user id and the role of
the user.  The authorization gate aborts with 403 unless the role is `admin`.
On `POST /books` and `DELETE /books/:id` both gates stand before the handler,
on the other routes of `/books` the authentication gate does; and when a gate
aborts, the answer is the one of the gate and the store is untouched, whatever
the handler is. -/
theorem C10_gate_chain (jwtParse : String → Option Token) (s : Store) (req : Request)
    (c : Context) :
    (req.Authorization = "" →
      JWTMiddleware jwtParse s req.Authorization c =
        .abort ⟨401, .error "Authorization header required"⟩) ∧
    (req.Authorization ≠ "" →
      ((Split req.Authorization ' ').length ≠ 2 ∨
        (Split req.Authorization ' ').head? ≠ some "Bearer") →
      JWTMiddleware jwtParse s req.Authorization c =
        .abort ⟨401, .error "Invalid authorization header"⟩) ∧
    (∀ tokenStr, req.Authorization ≠ "" → Split req.Authorization ' ' = ["Bearer", tokenStr] →
      (jwtParse tokenStr = none ∨
        ∃ token, jwtParse tokenStr = some token ∧
          (token.Valid = false ∨ token.Claims = none ∨
            ∃ claims, token.Claims = some claims ∧ claims.user_id = none)) →
      ∃ msg, JWTMiddleware jwtParse s req.Authorization c = .abort ⟨401, .error msg⟩) ∧
    (∀ tokenStr token claims userID,
      req.Authorization ≠ "" → Split req.Authorization ' ' = ["Bearer", tokenStr] →
      jwtParse tokenStr = some token → token.Valid = true → token.Claims = some claims →
      claims.user_id = some userID →
      (firstUser s userID = none →
        JWTMiddleware jwtParse s req.Authorization c = .abort ⟨401, .error "User not found"⟩) ∧
      (∀ user, firstUser s userID = some user → user.Status ≠ "active" →
        JWTMiddleware jwtParse s req.Authorization c =
          .abort ⟨403, .error "User account is blocked"⟩) ∧
      (∀ user, firstUser s userID = some user → user.Status = "active" →
        JWTMiddleware jwtParse s req.Authorization c =
          .next { c with user_id := some userID, role := some user.Role })) ∧
    (c.role ≠ some "admin" →
      AdminMiddleware c = .abort ⟨403, .error "Admin access required"⟩) ∧
    (c.role = some "admin" → AdminMiddleware c = .next c) ∧
    (req.route = .getBooks ∨ req.route = .borrowBook ∨ req.route = .returnBook ∨
        req.route = .addReview →
      (∀ r, JWTMiddleware jwtParse s req.Authorization req.context = .abort r →
        serve jwtParse s req = (r, s)) ∧
      (∀ c1, JWTMiddleware jwtParse s req.Authorization req.context = .next c1 →
        serve jwtParse s req = routeHandler req s c1)) ∧
    (req.route = .createBook ∨ req.route = .deleteBook →
      (∀ r, JWTMiddleware jwtParse s req.Authorization req.context = .abort r →
        serve jwtParse s req = (r, s)) ∧
      (∀ c1, JWTMiddleware jwtParse s req.Authorization req.context = .next c1 →
        c1.role ≠ some "admin" →
        serve jwtParse s req = (⟨403, .error "Admin access required"⟩, s)) ∧
      (∀ c1, JWTMiddleware jwtParse s req.Authorization req.context = .next c1 →
        c1.role = some "admin" →
        serve jwtParse s req = routeHandler req s c1)) ∧
    (∀ (gates : List Gate) (handler : Store → Context → Response × Store) (r : Response),
      runGates s req gates req.context = .abort r → serveWith gates handler s req = (r, s)) := by
  refine ⟨?_, ?_, ?_, ?_, ?_, ?_, ?_, ?_, ?_⟩
  · intro h
    simp [JWTMiddleware, h]
  · intro h hparts
    unfold JWTMiddleware
    simp only [h, if_false]
    split
    · rename_i p0 tokenStr heq
      rw [heq] at hparts
      simp only [List.length_cons, List.length_nil, List.head?_cons, ne_eq, Option.some.injEq] at hparts
      rcases hparts with hp | hp
      · exact absurd trivial hp
      · simp [hp]
    · rfl
  · intro tokenStr h hparts hbad
    unfold JWTMiddleware
    simp only [h, if_false, hparts, ne_eq, not_true_eq_false]
    rcases hbad with hnone | ⟨token, hsome, hv | hc | ⟨claims, hc, hid⟩⟩
    · exact ⟨"Invalid token", by simp [hnone]⟩
    · exact ⟨"Invalid token", by simp [hsome, hv]⟩
    · simp only [hsome]
      cases hv : token.Valid
      · exact ⟨"Invalid token", by simp⟩
      · exact ⟨"Invalid token claims", by simp [hc]⟩
    · simp only [hsome]
      cases hv : token.Valid
      · exact ⟨"Invalid token", by simp⟩
      · exact ⟨"Invalid user ID in token", by simp [hc, hid]⟩
  · intro tokenStr token claims userID h hparts hsome hv hc hid
    refine ⟨?_, ?_, ?_⟩
    · intro hu
      simp [JWTMiddleware, h, hparts, hsome, hv, hc, hid, hu]
    · intro user hu hst
      simp [JWTMiddleware, h, hparts, hsome, hv, hc, hid, hu, hst]
    · intro user hu hst
      simp [JWTMiddleware, h, hparts, hsome, hv, hc, hid, hu, hst]
  · intro h
    simp [AdminMiddleware, h]
  · intro h
    simp [AdminMiddleware, h]
  · intro hroute
    refine ⟨?_, ?_⟩
    · intro r hr
      rcases hroute with h | h | h | h <;>
        simp [serve, serveWith, routeGates, runGates, h, hr]
    · intro c1 hr
      rcases hroute with h | h | h | h <;>
        simp [serve, serveWith, routeGates, runGates, h, hr]
  · intro hroute
    refine ⟨?_, ?_, ?_⟩
    · intro r hr
      rcases hroute with h | h <;>
        simp [serve, serveWith, routeGates, runGates, h, hr]
    · intro c1 hr hrole
      rcases hroute with h | h <;>
        simp [serve, serveWith, routeGates, runGates, h, hr, AdminMiddleware, hrole]
    · intro c1 hr hrole
      rcases hroute with h | h <;>
        simp [serve, serveWith, routeGates, runGates, h, hr, AdminMiddleware, hrole]
  · intro gates handler r hr
    simp [serveWith, hr]

/-- C10, witness: on `POST /books` a request without header is answered 401, one
with a malformed header 401, one of the blocked user 403, one of a plain user
403, each leaving the store as it was; the request of the admin reaches
`CreateBook`. -/
theorem C10_gate_chain_witness :
    serve demoParse staffedStore (createRequest "") =
      (⟨401, .error "Authorization header required"⟩, staffedStore) ∧
    serve demoParse staffedStore (createRequest "Bearer  ann") =
      (⟨401, .error "Invalid authorization header"⟩, staffedStore) ∧
    serve demoParse staffedStore (createRequest "Bearer eve") =
      (⟨403, .error "User account is blocked"⟩, staffedStore) ∧
    serve demoParse staffedStore (createRequest "Bearer ann") =
      (⟨403, .error "Admin access required"⟩, staffedStore) ∧
    (serve demoParse staffedStore (createRequest "Bearer bob")).1 =
      ⟨201, .bookCreated "Book created successfully" 1⟩ :=
  ⟨((C10_gate_chain demoParse staffedStore (createRequest "") (createRequest "").context
      ).2.2.2.2.2.2.2.1 (Or.inl rfl)).1 _ (by decide),
   ((C10_gate_chain demoParse staffedStore (createRequest "Bearer  ann")
      (createRequest "Bearer  ann").context).2.2.2.2.2.2.2.1 (Or.inl rfl)).1 _ (by decide),
   ((C10_gate_chain demoParse staffedStore (createRequest "Bearer eve")
      (createRequest "Bearer eve").context).2.2.2.2.2.2.2.1 (Or.inl rfl)).1 _ (by decide),
   ((C10_gate_chain demoParse staffedStore (createRequest "Bearer ann")
      (createRequest "Bearer ann").context).2.2.2.2.2.2.2.1 (Or.inl rfl)).2.1
      { (createRequest "Bearer ann").context with user_id := some 1, role := some "user" }
      (by decide) (by decide),
   by decide⟩

/-- C11.  From a store with no books and no orders, after any `CreateBook`
calls and then any `BorrowBook` and `ReturnBook` calls in which no persistence
operation is made to fail, every book has
`available_copies + (number of issued orders for it) = total_copies`.  And in
such a store, when a `BorrowBook` is answered 200 and a `ReturnBook` of the same
user for the same book follows: if that `ReturnBook` is answered 200, the row of
the book is again what it was before the borrow, in particular its
`available_copies`; and it is answered 200 whenever no persistence operation is
made to fail in it. -/
theorem C11_copies_conserved (s0 : Store) (creates lends : List Call)
    (hb : s0.books = []) (ho : s0.orders = [])
    (hc : ∀ k ∈ creates, k.isCreate = true)
    (hl : ∀ k ∈ lends, k.isLending = true ∧ k.noFailure = true) :
    (∀ b ∈ (run (run s0 creates) lends).books,
      b.AvailableCopies + issuedCount (run (run s0 creates) lends) b.ID = b.TotalCopies) ∧
    (∀ (c1 c2 : Context) (bookID : Int) (book : Book),
      Atoi c1.id = some bookID →
      firstBook (run (run s0 creates) lends) bookID = some book →
      c2.id = c1.id → c2.user_id = c1.user_id →
      (BorrowBook (run (run s0 creates) lends) c1).1.status = 200 →
      ((ReturnBook (BorrowBook (run (run s0 creates) lends) c1).2 c2).1.status = 200 →
        firstBook (ReturnBook (BorrowBook (run (run s0 creates) lends) c1).2 c2).2 bookID =
          some book) ∧
      (c2.failAt = none →
        (ReturnBook (BorrowBook (run (run s0 creates) lends) c1).2 c2).1.status = 200)) := by
  have hfresh : Fresh s0 := ⟨ho, by rw [hb]; simp⟩
  have hcons := conserved_run lends _ hl (conserved_of_fresh _ (fresh_run creates s0 hc hfresh))
  generalize run (run s0 creates) lends = s at hcons
  refine ⟨fun b hbm => (hcons.2.2 b hbm).2.2, ?_⟩
  intro c1 c2 bookID book hid hbook hsame hsameu hB
  rcases BorrowBook_cases s c1 with ⟨_, hne⟩ | ⟨userID, bookID1, book1, hid1, hu1, hb1, hav, hno, hres⟩
  · exact absurd hB hne
  · rcases hres with ⟨_, hr⟩ | ⟨_, _, hr⟩
    · rw [hr] at hB; simp at hB
    · have hbid : bookID1 = bookID := by
        rw [hid] at hid1; exact (Option.some.inj hid1).symm
      subst hbid
      have hbk : book1 = book := by
        rw [hbook] at hb1; exact (Option.some.inj hb1).symm
      subst hbk
      obtain ⟨hbk0, hbk1, hbk2⟩ := hcons.2.2 book1 (firstBook_some hbook).1
      have hw1 : wrapInt64 (book1.AvailableCopies - 1) = book1.AvailableCopies - 1 := by
        apply wrapInt64_of_range
        · unfold minInt64; omega
        · unfold maxInt64 at *; omega
      have hw2 : wrapInt64 (book1.AvailableCopies - 1 + 1) = book1.AvailableCopies := by
        rw [wrapInt64_of_range]
        · omega
        · unfold minInt64; omega
        · unfold maxInt64 at *; omega
      have hid2 : Atoi c2.id = some bookID1 := by rw [hsame]; exact hid
      have hu2 : c2.user_id = some userID := by rw [hsameu]; exact hu1
      have hfb1 : firstBook (BorrowBook s c1).2 bookID1 =
          some { book1 with AvailableCopies := wrapInt64 (book1.AvailableCopies - 1) } := by
        rw [hr]
        exact firstBook_withSavedBook (s := withOrder s (borrowRow s c1 userID bookID1)) _
          hbook rfl
      have hrestore : ∀ order,
          firstBook (withSavedBook
            (withSavedOrder (BorrowBook s c1).2 (returnRow c2 order))
            { ({ book1 with AvailableCopies := wrapInt64 (book1.AvailableCopies - 1) } : Book)
              with AvailableCopies := wrapInt64 (wrapInt64 (book1.AvailableCopies - 1) + 1) })
            bookID1 = some book1 := by
        intro order
        have hfb2 : firstBook (withSavedOrder (BorrowBook s c1).2 (returnRow c2 order)) bookID1 =
            some { book1 with AvailableCopies := wrapInt64 (book1.AvailableCopies - 1) } := hfb1
        have := firstBook_withSavedBook
          { ({ book1 with AvailableCopies := wrapInt64 (book1.AvailableCopies - 1) } : Book)
            with AvailableCopies := wrapInt64 (wrapInt64 (book1.AvailableCopies - 1) + 1) }
          hfb2 rfl
        rw [this, hw1, hw2]
      refine ⟨?_, ?_⟩
      · intro hR
        rcases ReturnBook_cases (BorrowBook s c1).2 c2 with
          ⟨_, hne⟩ | ⟨userID2, bookID2, order, hid3, _, _, hres2⟩
        · exact absurd hR hne
        · have hbid2 : bookID2 = bookID1 := by
            rw [hid2] at hid3; exact (Option.some.inj hid3).symm
          subst hbid2
          rcases hres2 with ⟨h5, _, _⟩ | ⟨book2, hb2, hr2⟩
          · rw [h5] at hR; simp at hR
          · have hb2eq : book2 =
                { book1 with AvailableCopies := wrapInt64 (book1.AvailableCopies - 1) } := by
              have hb3 : firstBook (BorrowBook s c1).2 bookID2 = some book2 := hb2
              rw [hfb1] at hb3
              exact (Option.some.inj hb3).symm
            rw [hr2, hb2eq]
            exact hrestore order
      · intro hf
        have hrow : borrowRow s c1 userID bookID1 ∈ (BorrowBook s c1).2.orders := by
          rw [hr]
          simp [withSavedBook, withOrder]
        have hkey := (firstBook_some hbook).2
        have hu : toUint bookID1 = book1.ID := toUint_of_key hkey (Atoi_some hid).2.2
        have hissued : issuedBy userID bookID1 (borrowRow s c1 userID bookID1) = true := by
          simp [issuedBy, borrowRow, hu, hkey]
        cases hfo : firstOrder (issuedBy userID bookID1) (BorrowBook s c1).2.orders with
        | none =>
          have := firstOrder_eq_none.mp hfo _ hrow
          rw [hissued] at this
          cases this
        | some order =>
          have hfb2 : firstBook (withSavedOrder (BorrowBook s c1).2 (returnRow c2 order))
              bookID1 =
              some { book1 with AvailableCopies := wrapInt64 (book1.AvailableCopies - 1) } := hfb1
          rw [ReturnBook_ok hid2 hu2 hfo hfb2 hf]

/-- C11, witness: after user 1 borrowed book 1 of two copies, one copy is
available and one order is issued; and a borrow at time 5 followed by a return
at time 9, both by user 1, gives the row of the book back as it was. -/
theorem C11_copies_conserved_witness :
    lentBook ∈ (run (run demoStore [.create (demoCtx 0 none) (some demoBookRequest)])
      [.borrow (demoCtx 5 none)]).books ∧
    lentBook.AvailableCopies +
      issuedCount (run (run demoStore [.create (demoCtx 0 none) (some demoBookRequest)])
        [.borrow (demoCtx 5 none)]) lentBook.ID = lentBook.TotalCopies ∧
    (ReturnBook (BorrowBook
      (run (run demoStore [.create (demoCtx 0 none) (some demoBookRequest)]) [])
      (demoCtx 5 none)).2 (demoCtx 9 none)).1.status = 200 ∧
    firstBook (ReturnBook (BorrowBook
      (run (run demoStore [.create (demoCtx 0 none) (some demoBookRequest)]) [])
      (demoCtx 5 none)).2 (demoCtx 9 none)).2 1 = some demoBook :=
  ⟨by decide,
    (C11_copies_conserved demoStore [.create (demoCtx 0 none) (some demoBookRequest)]
      [.borrow (demoCtx 5 none)] rfl rfl (by decide) (by decide)).1 lentBook (by decide),
    ((C11_copies_conserved demoStore [.create (demoCtx 0 none) (some demoBookRequest)]
      [] rfl rfl (by decide) (by decide)).2 (demoCtx 5 none) (demoCtx 9 none) 1 demoBook
      (by decide) (by decide) rfl rfl (by decide)).2 rfl,
    ((C11_copies_conserved demoStore [.create (demoCtx 0 none) (some demoBookRequest)]
      [] rfl rfl (by decide) (by decide)).2 (demoCtx 5 none) (demoCtx 9 none) 1 demoBook
      (by decide) (by decide) rfl rfl (by decide)).1 (by decide)⟩

end Library
